import Mathlib

/-!
Verification of the Design-to-Component Semantic Analysis Pipeline
(semantic grouping service, GPT vision service, style mapper service,
analysis comparison utilities) against its natural-language specification.

The TypeScript services are shallowly embedded: JavaScript numbers are
modelled as exact rationals (`ℚ`), JS objects as Lean structures with
`Option` fields for possibly-`undefined` members, thrown exceptions as
`Except`/`Option`, and JS falsy-value defaulting (`x || d`) as explicit
helper functions.  Every definition follows the corresponding source
function; deviations forced by the modelling are noted in comments.
-/

namespace FigmaPipeline

/-! ## Kernel-evaluable rational arithmetic

The library's `Rat.add`/`Rat.sub`/`Rat.mul`/`Rat.inv` are `@[irreducible]`,
so concrete runs of the embedded code could not be checked by evaluation.
The wrappers below compute the same rationals through `mkRat` (which does
reduce); the bridge lemmas identify them with the ordinary field
operations, so symbolic proofs can still use ordinary algebra. -/

def qadd (a b : ℚ) : ℚ := mkRat (a.num * b.den + b.num * a.den) (a.den * b.den)

def qsub (a b : ℚ) : ℚ := mkRat (a.num * b.den - b.num * a.den) (a.den * b.den)

def qmul (a b : ℚ) : ℚ := mkRat (a.num * b.num) (a.den * b.den)

def qdiv (a b : ℚ) : ℚ :=
  if 0 ≤ b.num then mkRat (a.num * b.den) (a.den * b.num.natAbs)
  else mkRat (-(a.num * b.den)) (a.den * b.num.natAbs)

def ratOfNat (n : ℕ) : ℚ := mkRat n 1

lemma qadd_eq (a b : ℚ) : qadd a b = a + b := by
  have ha : ((a.den : ℚ)) ≠ 0 := by
    exact_mod_cast a.den_nz
  have hb : ((b.den : ℚ)) ≠ 0 := by
    exact_mod_cast b.den_nz
  unfold qadd
  rw [Rat.mkRat_eq_div]
  push_cast
  conv_rhs => rw [← Rat.num_div_den a, ← Rat.num_div_den b]
  field_simp

lemma qsub_eq (a b : ℚ) : qsub a b = a - b := by
  have ha : ((a.den : ℚ)) ≠ 0 := by
    exact_mod_cast a.den_nz
  have hb : ((b.den : ℚ)) ≠ 0 := by
    exact_mod_cast b.den_nz
  unfold qsub
  rw [Rat.mkRat_eq_div]
  push_cast
  conv_rhs => rw [← Rat.num_div_den a, ← Rat.num_div_den b]
  field_simp
  ring

lemma qmul_eq (a b : ℚ) : qmul a b = a * b := by
  have ha : ((a.den : ℚ)) ≠ 0 := by
    exact_mod_cast a.den_nz
  have hb : ((b.den : ℚ)) ≠ 0 := by
    exact_mod_cast b.den_nz
  unfold qmul
  rw [Rat.mkRat_eq_div]
  push_cast
  conv_rhs => rw [← Rat.num_div_den a, ← Rat.num_div_den b]
  field_simp

lemma qdiv_eq (a b : ℚ) : qdiv a b = a / b := by
  have ha : ((a.den : ℚ)) ≠ 0 := by
    exact_mod_cast a.den_nz
  by_cases hb0 : b = 0
  · subst hb0
    simp [qdiv, Rat.mkRat_eq_div]
  · have hbnum : (b.num : ℚ) ≠ 0 := by
      exact_mod_cast Rat.num_ne_zero.mpr hb0
    unfold qdiv
    rcases le_or_lt 0 b.num with h | h
    · rw [if_pos h, Rat.mkRat_eq_div]
      have habs : ((b.num.natAbs : ℕ) : ℚ) = (b.num : ℚ) := by
        have h3 : ((b.num.natAbs : ℤ) : ℚ) = (b.num : ℚ) := by
          rw [Int.natAbs_of_nonneg h]
        rwa [Int.cast_natCast] at h3
      push_cast
      rw [habs]
      conv_rhs => rw [← Rat.num_div_den a, ← Rat.num_div_den b]
      rw [div_div_div_eq]
    · rw [if_neg (not_le.mpr h), Rat.mkRat_eq_div]
      have habs : ((b.num.natAbs : ℕ) : ℚ) = -(b.num : ℚ) := by
        have h3 : ((b.num.natAbs : ℤ) : ℚ) = ((-b.num : ℤ) : ℚ) := by
          rw [Int.ofNat_natAbs_of_nonpos h.le]
        rw [Int.cast_natCast, Int.cast_neg] at h3
        exact h3
      push_cast
      rw [habs]
      conv_rhs => rw [← Rat.num_div_den a, ← Rat.num_div_den b]
      rw [div_div_div_eq]
      field_simp

lemma ratOfNat_eq (n : ℕ) : ratOfNat n = (n : ℚ) := by
  unfold ratOfNat
  rw [Rat.mkRat_eq_div]
  simp

/-! ## JS-semantics helpers -/

/-- JS `x || d` for a possibly-undefined number: `0` (and `undefined`/`null`,
modelled as `none`) is falsy and falls back to the default. -/
def jsOrQ (x : Option ℚ) (d : ℚ) : ℚ :=
  match x with
  | none => d
  | some v => if v = 0 then d else v

/-- JS `x || d` for a possibly-undefined string: the empty string is falsy. -/
def jsOrS (x : Option String) (d : String) : String :=
  match x with
  | none => d
  | some v => if v = "" then d else v

/-- ASCII lowercasing of one character (JS `toLowerCase` restricted to the
ASCII names and texts the analysed code matches on; `String.toLower` itself
is not kernel-evaluable). -/
def charLower (c : Char) : Char :=
  if 'A' ≤ c ∧ c ≤ 'Z' then Char.ofNat (c.toNat + 32) else c

/-- JS `s.toLowerCase()` on ASCII strings. -/
def strLower (s : String) : String := String.mk (s.data.map charLower)

/-- Byte-level prefix test on character lists (JS `String.prototype.startsWith`). -/
def strStarts : List Char → List Char → Bool
  | [], _ => true
  | _ :: _, [] => false
  | a :: as, b :: bs => a == b && strStarts as bs

/-- Substring occurrence test on character lists (JS `String.prototype.includes`). -/
def listHasInf (needle : List Char) : List Char → Bool
  | [] => strStarts needle []
  | c :: rest => strStarts needle (c :: rest) || listHasInf needle rest

/-- JS `s.includes(sub)`. -/
def strIncludes (s sub : String) : Bool :=
  listHasInf sub.data s.data

/-- JS `s.toLowerCase().includes(pat)` for an already-lowercase pattern. -/
def inclL (s pat : String) : Bool :=
  strIncludes (strLower s) pat

/-! ## Data model (figmaService.ts)

`ComponentAnalysis` carries the open `properties` bag of the source as
explicit optional fields: only the properties the analysed services read
(`characters`, `style`, `fills`, `cornerRadius`, `styling`) are modelled.
Fill contents are opaque here because the only code path that would read
them (`extractColor`) is missing from the `GPTVisionService` class. -/

structure Bounds where
  x : ℚ
  y : ℚ
  width : ℚ
  height : ℚ
deriving DecidableEq, Repr

structure TextStyle where
  fontSize : Option ℚ := none
  fontWeight : Option ℚ := none
  fontFamily : Option String := none
deriving DecidableEq, Repr

structure Fill where
  fillType : String := ""
deriving DecidableEq, Repr

structure PaddingSpec where
  top : ℚ
  right : ℚ
  bottom : ℚ
  left : ℚ
deriving DecidableEq, Repr

structure StylingColors where
  background : Option String := none
  text : Option String := none
  border : Option String := none
deriving DecidableEq, Repr

structure StylingTypography where
  fontFamily : Option String := none
  fontSize : Option ℚ := none
  fontWeight : Option ℚ := none
  textAlign : Option String := none
deriving DecidableEq, Repr

structure StylingSpacing where
  padding : Option PaddingSpec := none
deriving DecidableEq, Repr

structure StylingBorders where
  radius : Option ℚ := none
  width : Option ℚ := none
  style : Option String := none
  color : Option String := none
deriving DecidableEq, Repr

structure Styling where
  colors : Option StylingColors := none
  typography : Option StylingTypography := none
  spacing : Option StylingSpacing := none
  borders : Option StylingBorders := none
  shadows : List String := []
  images : Bool := false
deriving DecidableEq, Repr

structure ComponentAnalysis where
  id : String
  name : String
  type : String
  bounds : Bounds
  characters : Option String := none
  style : Option TextStyle := none
  fills : Option (List Fill) := none
  cornerRadius : Option ℚ := none
  styling : Option Styling := none
deriving DecidableEq, Repr

/-! ## Data model (semanticGroupingService.ts) -/

/-- The open `properties` bag of a semantic group; only the keys the
analysed code reads or writes (`interactive`, `text`) are modelled, with
`none` standing for an absent key. -/
structure GroupProps where
  interactive : Option Bool := none
  text : Option String := none
deriving DecidableEq, Repr

structure SemanticGroup where
  id : String
  name : String
  type : String
  description : String
  bounds : Bounds
  children : List ComponentAnalysis
  properties : GroupProps
  confidence : ℚ
deriving DecidableEq, Repr

structure LayoutStructure where
  screenType : String
  mainSections : List String
  userFlow : String
deriving DecidableEq, Repr

structure SemanticGroupingResult where
  layoutStructure : Option LayoutStructure := none
  groups : List SemanticGroup
  totalNodes : ℕ
  groupedNodes : ℕ
  ungroupedNodes : List ComponentAnalysis
  confidence : ℚ
  processingTime : ℚ
deriving DecidableEq, Repr

/-! ## Grouping fallback path (createFallbackResult, mapTypeToSemantic) -/

/-- `mapTypeToSemantic` from semanticGroupingService.ts: the fixed
Figma-node-kind to semantic-type table. -/
def mapTypeToSemantic (figmaType : String) : String :=
  if figmaType = "TEXT" then "text"
  else if figmaType = "RECTANGLE" then "container"
  else if figmaType = "FRAME" then "container"
  else if figmaType = "GROUP" then "container"
  else if figmaType = "COMPONENT" then "other"
  else if figmaType = "INSTANCE" then "other"
  else if figmaType = "ELLIPSE" then "other"
  else "other"

/-- The single-member group `createFallbackResult` builds for one descriptor. -/
def mkFallbackGroup (comp : ComponentAnalysis) : SemanticGroup :=
  { id := "fallback-" ++ comp.id
    name := jsOrS (some comp.name) (comp.type ++ " Component")
    type := mapTypeToSemantic comp.type
    description := comp.type ++ " component"
    bounds := comp.bounds
    children := [comp]
    properties :=
      { interactive := some (comp.type = "BUTTON" || inclL comp.name "button")
        text := comp.characters }
    confidence := mkRat 1 2 }

/-- The `forEach` loop of `createFallbackResult`: one group per descriptor,
skipping any descriptor whose id was already processed. -/
def fallbackGroupsAux : List ComponentAnalysis → List String → List SemanticGroup
  | [], _ => []
  | c :: rest, seen =>
    if c.id ∈ seen then fallbackGroupsAux rest seen
    else mkFallbackGroup c :: fallbackGroupsAux rest (c.id :: seen)

/-- `createFallbackResult` from semanticGroupingService.ts. -/
def createFallbackResult (components : List ComponentAnalysis) (processingTime : ℚ) :
    SemanticGroupingResult :=
  let groups := fallbackGroupsAux components []
  { layoutStructure := none
    groups := groups.take 15
    totalNodes := components.length
    groupedNodes := min 15 components.length
    ungroupedNodes := components.drop 15
    confidence := mkRat 1 2
    processingTime := processingTime }

/-! ## Model-output validation and auto-repair (semanticGroupingService.ts) -/

/-- The shape of the reasoning model's decoded JSON reply for grouping, as
read defensively by `validateAndEnhanceResult` (`result.groups || []` and
friends).  `none` models an absent/`null` field. -/
structure RawLayoutStructure where
  screenType : Option String := none
  mainSections : Option (List String) := none
  userFlow : Option String := none
deriving DecidableEq, Repr

structure RawGroup where
  id : Option String := none
  name : Option String := none
  type : Option String := none
  description : Option String := none
  bounds : Option Bounds := none
  children : List String := []
  properties : GroupProps := {}
  confidence : Option ℚ := none
deriving DecidableEq, Repr

structure RawGroupingResult where
  layoutStructure : Option RawLayoutStructure := none
  groups : List RawGroup := []
  confidence : Option ℚ := none
deriving DecidableEq, Repr

/-- `findChildrenByIds`: resolve child id references against the run's
descriptors, dropping unresolved ids. -/
def findChildrenByIds (childIds : List String) (allComponents : List ComponentAnalysis) :
    List ComponentAnalysis :=
  childIds.filterMap (fun i => allComponents.find? (fun c => c.id = i))

/-- `Math.max(0.1, Math.min(1.0, c))`. -/
def clampConf (c : ℚ) : ℚ := max (mkRat 1 10) (min 1 c)

lemma mkRat_tenth : (mkRat 1 10 : ℚ) = 1/10 := by
  rw [Rat.mkRat_eq_div]
  norm_num

/-- The `header section` filter of `autoMapComponentsToGroups`. -/
def isHeaderComp (comp : ComponentAnalysis) : Bool :=
  let isTopArea := comp.bounds.y < 150
  let isHeaderText := comp.type = "TEXT" &&
    (comp.characters.map (fun s => inclL s "payment")).getD false
  let isBackButton := inclL comp.name "back" || comp.type = "INSTANCE"
  isTopArea && (isHeaderText || isBackButton)

/-- The `payment methods section` filter of `autoMapComponentsToGroups`. -/
def isPaymentComp (comp : ComponentAnalysis) : Bool :=
  let isPaymentButton := inclL comp.name "cash" || inclL comp.name "visa" ||
    inclL comp.name "mastercard" || inclL comp.name "paypal"
  let isPaymentText := comp.type = "TEXT" &&
    (comp.characters.map (fun s => inclL s "cash" || inclL s "visa" ||
      inclL s "mastercard" || inclL s "paypal" || inclL s "add" ||
      inclL s "card")).getD false
  let isMiddleArea := 150 ≤ comp.bounds.y && comp.bounds.y < 400
  isMiddleArea && (isPaymentButton || isPaymentText ||
    comp.type = "RECTANGLE" || comp.type = "INSTANCE")

/-- The `total display` filter of `autoMapComponentsToGroups`. -/
def isTotalComp (comp : ComponentAnalysis) : Bool :=
  let hasTotalText := (comp.characters.map (fun s => inclL s "total")).getD false ||
    (comp.characters.map (fun s => strIncludes s "$96")).getD false ||
    (comp.characters.map (fun s => strIncludes s "96")).getD false
  let isTotalLabel := comp.type = "TEXT" && hasTotalText
  let isBottomMiddle := 400 ≤ comp.bounds.y && comp.bounds.y < 500
  isBottomMiddle && (isTotalLabel || (comp.type = "TEXT" && comp.bounds.width < 200))

/-- The `primary action button` filter of `autoMapComponentsToGroups`. -/
def isActionComp (comp : ComponentAnalysis) : Bool :=
  let isPayButton := (comp.characters.map (fun s => inclL s "pay")).getD false ||
    (comp.characters.map (fun s => inclL s "confirm")).getD false ||
    inclL comp.name "pay" || inclL comp.name "button"
  let isBottomArea := 500 ≤ comp.bounds.y
  let isWideButton := 200 < comp.bounds.width
  isBottomArea && (isPayButton || isWideButton)

/-- The `default` branch of `autoMapComponentsToGroups`: descriptors within
100px Manhattan distance of the group's declared bounds, capped at 3. -/
def nearGroup (group : SemanticGroup) (comp : ComponentAnalysis) : Bool :=
  qadd |qsub comp.bounds.x group.bounds.x| |qsub comp.bounds.y group.bounds.y| < 100

/-- The components one repair claims from the current pool, per the
`switch (group.name.toLowerCase())` of `autoMapComponentsToGroups`. -/
def repairSelect (group : SemanticGroup) (pool : List ComponentAnalysis) :
    List ComponentAnalysis :=
  let ln := strLower group.name
  if ln = "header section" then pool.filter isHeaderComp
  else if ln = "payment methods section" then pool.filter isPaymentComp
  else if ln = "total display" then pool.filter isTotalComp
  else if ln = "primary action button" then pool.filter isActionComp
  else (pool.filter (nearGroup group)).take 3

/-- One iteration of the `groups.forEach` loop of `autoMapComponentsToGroups`:
a group with children is skipped; an empty group receives the selected
components, which are then spliced out of the shared pool
(`availableComponents.splice`, modelled as repeated `List.erase`). -/
def autoMapStep (pool : List ComponentAnalysis) (g : SemanticGroup) :
    SemanticGroup × List ComponentAnalysis :=
  if g.children.isEmpty then
    let mapped := repairSelect g pool
    ({ g with children := mapped }, mapped.foldl (fun p c => p.erase c) pool)
  else (g, pool)

/-- The recursion of `autoMapComponentsToGroups` over the group list,
threading the shared `availableComponents` pool. -/
def autoMapGo : List SemanticGroup → List ComponentAnalysis → List SemanticGroup
  | [], _ => []
  | g :: gs, pool =>
    let r := autoMapStep pool g
    r.1 :: autoMapGo gs r.2

/-- `autoMapComponentsToGroups` from semanticGroupingService.ts: the pool is
initialised to a copy of the full descriptor list. -/
def autoMapComponentsToGroups (groups : List SemanticGroup)
    (components : List ComponentAnalysis) : List SemanticGroup :=
  autoMapGo groups components

/-- The per-group construction of `validateAndEnhanceResult`.  The source
generates a fresh id `group-${Math.random()}` when the model omits one; the
nondeterministic suffix is modelled by a fixed placeholder, which none of
the verified properties depend on. -/
def toSemanticGroup (g : RawGroup) (originalComponents : List ComponentAnalysis) :
    SemanticGroup :=
  { id := jsOrS g.id "group-random"
    name := jsOrS g.name "Unnamed Group"
    type := jsOrS g.type "other"
    description := jsOrS g.description ""
    bounds := g.bounds.getD { x := 0, y := 0, width := 100, height := 50 }
    children := findChildrenByIds g.children originalComponents
    properties := g.properties
    confidence := clampConf (jsOrQ g.confidence (mkRat 7 10)) }

/-- `validateAndEnhanceResult` from semanticGroupingService.ts. -/
def validateAndEnhanceResult (result : RawGroupingResult)
    (originalComponents : List ComponentAnalysis) (processingTime : ℚ) :
    SemanticGroupingResult :=
  let groups0 := result.groups.map (toSemanticGroup · originalComponents)
  let groups :=
    if groups0.any (fun g => g.children.isEmpty) then
      autoMapComponentsToGroups groups0 originalComponents
    else groups0
  let groupedNodeIds := groups.flatMap (fun g => g.children.map (·.id))
  let ungroupedNodes := originalComponents.filter (fun c => c.id ∉ groupedNodeIds)
  { layoutStructure := result.layoutStructure.map (fun ls =>
      { screenType := jsOrS ls.screenType "general"
        mainSections := ls.mainSections.getD []
        userFlow := jsOrS ls.userFlow "User interacts with interface" })
    groups := groups
    totalNodes := originalComponents.length
    groupedNodes := originalComponents.length - ungroupedNodes.length
    ungroupedNodes := ungroupedNodes
    confidence := clampConf (jsOrQ result.confidence (mkRat 7 10))
    processingTime := processingTime }

/-! ## JSON values and `JSON.parse`

`groupComponents` feeds the model's reply text directly to `JSON.parse`
(no code-fence stripping), while the vision service strips a leading
"```json" fence and a trailing "```" fence first.  The parser below models
`JSON.parse`: values are null, booleans, exact-rational numbers, strings,
arrays and objects, and the whole input (up to surrounding whitespace)
must be consumed.  `\u` escapes are outside the modelled input space. -/

inductive Json where
  | null
  | bool (b : Bool)
  | num (v : ℚ)
  | str (s : String)
  | arr (elems : List Json)
  | obj (fields : List (String × Json))

/-- The opening-brace character, written via its code point. -/
def lbrace : Char := Char.ofNat 123

/-- The closing-brace character, written via its code point. -/
def rbrace : Char := Char.ofNat 125

/-- The backtick character, written via its code point. -/
def backquoteChar : Char := Char.ofNat 96

/-- JSON insignificant whitespace. -/
def isWsChar (c : Char) : Bool :=
  c == ' ' || c == '\n' || c == '\t' || c == '\x0d'

def skipWs : List Char → List Char
  | [] => []
  | c :: rest => if isWsChar c then skipWs rest else c :: rest

/-- String-literal body parser; input starts after the opening quote,
returns the decoded characters and the rest after the closing quote. -/
def parseStrAux (acc : List Char) : List Char → Option (List Char × List Char)
  | [] => none
  | c :: rest =>
    if c == '"' then some (acc.reverse, rest)
    else if c == '\x5c' then
      match rest with
      | [] => none
      | e :: rest2 =>
        if e == '"' then parseStrAux ('"' :: acc) rest2
        else if e == '\x5c' then parseStrAux ('\x5c' :: acc) rest2
        else if e == '/' then parseStrAux ('/' :: acc) rest2
        else if e == 'n' then parseStrAux ('\n' :: acc) rest2
        else if e == 't' then parseStrAux ('\t' :: acc) rest2
        else if e == 'r' then parseStrAux ('\x0d' :: acc) rest2
        else if e == 'b' then parseStrAux (Char.ofNat 8 :: acc) rest2
        else if e == 'f' then parseStrAux (Char.ofNat 12 :: acc) rest2
        else none
    else parseStrAux (c :: acc) rest

def digitsToNat (ds : List Char) : ℕ :=
  ds.foldl (fun acc c => acc * 10 + (c.toNat - 48)) 0

/-- Exponent part of a JSON number, after the `e`/`E`. -/
def parseExpPart (cs : List Char) : Option (ℤ × List Char) :=
  let sgn : ℤ × List Char :=
    match cs with
    | '+' :: r => (1, r)
    | '-' :: r => (-1, r)
    | _ => (1, cs)
  let ds := sgn.2.takeWhile (·.isDigit)
  if ds.isEmpty then none
  else some (sgn.1 * (digitsToNat ds : ℤ), sgn.2.dropWhile (·.isDigit))

/-- Integer power of ten as an exact rational. -/
def qtenpow (e : ℤ) : ℚ :=
  if 0 ≤ e then mkRat ((10 : ℕ) ^ e.toNat : ℕ) 1 else mkRat 1 ((10 : ℕ) ^ (-e).toNat)

/-- JSON number parser (sign, integer part, optional fraction and exponent),
producing the exact rational value. -/
def parseNumber (cs : List Char) : Option (ℚ × List Char) :=
  let signNeg := cs.head? == some '-'
  let cs1 := if signNeg then cs.tail else cs
  let ip := cs1.takeWhile (·.isDigit)
  if ip.isEmpty then none
  else
    let afterInt := cs1.dropWhile (·.isDigit)
    let intVal : ℚ := ratOfNat (digitsToNat ip)
    let fracRes : Option (ℚ × List Char) :=
      match afterInt with
      | '.' :: rest =>
        let fs := rest.takeWhile (·.isDigit)
        if fs.isEmpty then none
        else some (mkRat (digitsToNat fs) (10 ^ fs.length),
          rest.dropWhile (·.isDigit))
      | _ => some (0, afterInt)
    match fracRes with
    | none => none
    | some (fv, cs2) =>
      let expRes : Option (ℤ × List Char) :=
        match cs2 with
        | 'e' :: rest => parseExpPart rest
        | 'E' :: rest => parseExpPart rest
        | _ => some (0, cs2)
      match expRes with
      | none => none
      | some (ev, cs3) =>
        let mag := qmul (qadd intVal fv) (qtenpow ev)
        some (if signNeg then -mag else mag, cs3)

mutual

/-- JSON value parser with fuel. -/
def parseValue : ℕ → List Char → Option (Json × List Char)
  | 0, _ => none
  | Nat.succ fuel, cs =>
    match skipWs cs with
    | [] => none
    | c :: rest =>
      if c == '"' then
        (parseStrAux [] rest).map (fun p => (Json.str (String.mk p.1), p.2))
      else if c == lbrace then
        match skipWs rest with
        | [] => none
        | c2 :: rest2 =>
          if c2 == rbrace then some (Json.obj [], rest2)
          else (parseObjFields fuel (c2 :: rest2)).map
            (fun p => (Json.obj p.1, p.2))
      else if c == '[' then
        match skipWs rest with
        | [] => none
        | c2 :: rest2 =>
          if c2 == ']' then some (Json.arr [], rest2)
          else (parseArrElems fuel (c2 :: rest2)).map
            (fun p => (Json.arr p.1, p.2))
      else if c == 't' then
        if strStarts "rue".data rest then some (Json.bool true, rest.drop 3)
        else none
      else if c == 'f' then
        if strStarts "alse".data rest then some (Json.bool false, rest.drop 4)
        else none
      else if c == 'n' then
        if strStarts "ull".data rest then some (Json.null, rest.drop 3)
        else none
      else
        (parseNumber (c :: rest)).map (fun p => (Json.num p.1, p.2))

/-- Array elements (after `[` with at least one element). -/
def parseArrElems : ℕ → List Char → Option (List Json × List Char)
  | 0, _ => none
  | Nat.succ fuel, cs =>
    match parseValue fuel cs with
    | none => none
    | some (v, cs1) =>
      match skipWs cs1 with
      | [] => none
      | c :: rest =>
        if c == ',' then
          match parseArrElems fuel rest with
          | none => none
          | some (vs, cs2) => some (v :: vs, cs2)
        else if c == ']' then some ([v], rest)
        else none

/-- Object fields (after the opening brace with at least one field). -/
def parseObjFields : ℕ → List Char → Option (List (String × Json) × List Char)
  | 0, _ => none
  | Nat.succ fuel, cs =>
    match skipWs cs with
    | [] => none
    | c :: rest =>
      if c == '"' then
        match parseStrAux [] rest with
        | none => none
        | some (k, cs1) =>
          match skipWs cs1 with
          | [] => none
          | c2 :: cs2 =>
            if c2 == ':' then
              match parseValue fuel cs2 with
              | none => none
              | some (v, cs3) =>
                match skipWs cs3 with
                | [] => none
                | c3 :: cs4 =>
                  if c3 == ',' then
                    match parseObjFields fuel cs4 with
                    | none => none
                    | some (fs, cs5) => some ((String.mk k, v) :: fs, cs5)
                  else if c3 == rbrace then some ([(String.mk k, v)], cs4)
                  else none
            else none
      else none

end

/-- `JSON.parse`: parse one value and require only whitespace to remain. -/
def jsonParse (s : String) : Option Json :=
  match parseValue (2 * s.data.length + 4) s.data with
  | none => none
  | some (v, rest) => if (skipWs rest).isEmpty then some v else none

/-! ## Decoding the parsed grouping reply

`validateAndEnhanceResult` receives `JSON.parse`'s untyped value and reads
fields defensively (`result.groups || []`, `group.children || []` ...).
The decoder below produces the `RawGroupingResult` those reads yield;
`none` models a `TypeError` thrown during the reads (property access on
`null`, calling `.map` on a truthy non-array), which the enclosing
`try`/`catch` turns into the fallback result.  Field values of unexpected
primitive types (e.g. a numeric `name`) are outside the modelled input
space. -/

def jsTruthy : Json → Bool
  | Json.null => false
  | Json.bool b => b
  | Json.num v => !(v = 0)
  | Json.str s => !(s = "")
  | Json.arr _ => true
  | Json.obj _ => true

/-- JS property lookup: `undefined` (`none`) on a missing key or non-object;
with duplicate keys `JSON.parse` keeps the last occurrence. -/
def jget : Json → String → Option Json
  | Json.obj fs, k => ((fs.reverse).find? (fun p => p.1 = k)).map (·.2)
  | _, _ => none

/-- `x || []` followed by array iteration: absent/falsy gives `[]`, an
array gives its elements, a truthy non-array throws. -/
def jsArrOr : Option Json → Option (List Json)
  | none => some []
  | some v =>
    if jsTruthy v then
      match v with
      | Json.arr xs => some xs
      | _ => none
    else some []

def decodeOptStr : Option Json → Option (Option String)
  | none => some none
  | some Json.null => some none
  | some (Json.str s) => some (some s)
  | some _ => none

def decodeOptQ : Option Json → Option (Option ℚ)
  | none => some none
  | some Json.null => some none
  | some (Json.num v) => some (some v)
  | some _ => none

def decodeBounds : Option Json → Option (Option Bounds)
  | none => some none
  | some v =>
    if jsTruthy v then
      match decodeOptQ (jget v "x"), decodeOptQ (jget v "y"),
          decodeOptQ (jget v "width"), decodeOptQ (jget v "height") with
      | some (some x), some (some y), some (some w), some (some h) =>
        some (some { x := x, y := y, width := w, height := h })
      | _, _, _, _ => none
    else some none

def decodeProps : Option Json → Option GroupProps
  | none => some {}
  | some v =>
    if jsTruthy v then
      match v with
      | Json.obj _ =>
        match jget v "interactive", decodeOptStr (jget v "text") with
        | some (Json.bool b), some t => some { interactive := some b, text := t }
        | none, some t => some { interactive := none, text := t }
        | _, _ => none
      | _ => none
    else some {}

def decodeGroupElem (j : Json) : Option RawGroup :=
  match j with
  | Json.null => none
  | _ =>
    match decodeOptStr (jget j "id"), decodeOptStr (jget j "name"),
        decodeOptStr (jget j "type"), decodeOptStr (jget j "description"),
        decodeBounds (jget j "bounds"), jsArrOr (jget j "children"),
        decodeProps (jget j "properties"), decodeOptQ (jget j "confidence") with
    | some i, some n, some t, some d, some b, some cj, some p, some cf =>
      some { id := i, name := n, type := t, description := d, bounds := b
             children := cj.filterMap (fun x =>
               match x with
               | Json.str s => some s
               | _ => none)
             properties := p, confidence := cf }
    | _, _, _, _, _, _, _, _ => none

def decodeLayout : Option Json → Option (Option RawLayoutStructure)
  | none => some none
  | some v =>
    if jsTruthy v then
      match decodeOptStr (jget v "screenType"),
          (match jget v "mainSections" with
           | none => some none
           | some (Json.arr xs) =>
             (xs.mapM (fun x =>
               match x with
               | Json.str s => some s
               | _ => none)).map some
           | some Json.null => some none
           | some _ => none),
          decodeOptStr (jget v "userFlow") with
      | some st, some ms, some uf =>
        some (some { screenType := st, mainSections := ms, userFlow := uf })
      | _, _, _ => none
    else some none

/-- Decode the parsed reply into the shape `validateAndEnhanceResult`
consumes.  A `null` reply throws on the first property access. -/
def decodeRawGrouping (j : Json) : Option RawGroupingResult :=
  match j with
  | Json.null => none
  | _ =>
    match jsArrOr (jget j "groups") with
    | none => none
    | some gjs =>
      match gjs.mapM decodeGroupElem, decodeOptQ (jget j "confidence"),
          decodeLayout (jget j "layoutStructure") with
      | some gs, some cf, some ls =>
        some { layoutStructure := ls, groups := gs, confidence := cf }
      | _, _, _ => none

/-! ## groupComponents (semanticGroupingService.ts)

The single external call has three observable outcomes: a transport/HTTP
failure (the `fetch` rejects or `!response.ok` throws), or a reply whose
`choices[0].message.content` is some text.  Every throw inside the `try`
block lands in the `catch`, which returns `createFallbackResult`. -/

inductive FetchOutcome where
  | fail
  | ok (content : String)
deriving DecidableEq, Repr

/-- `groupComponents`: on a successful call the content is given to
`JSON.parse` and `validateAndEnhanceResult`; any failure (transport,
HTTP status, JSON parse, `TypeError` during the defensive reads) is
caught and produces the deterministic fallback. -/
def groupComponents (outcome : FetchOutcome)
    (figmaComponents : List ComponentAnalysis) (processingTime : ℚ) :
    SemanticGroupingResult :=
  match outcome with
  | FetchOutcome.fail => createFallbackResult figmaComponents processingTime
  | FetchOutcome.ok content =>
    match jsonParse content with
    | none => createFallbackResult figmaComponents processingTime
    | some j =>
      match decodeRawGrouping j with
      | none => createFallbackResult figmaComponents processingTime
      | some raw => validateAndEnhanceResult raw figmaComponents processingTime

/-! ## Data model (gptVisionService.ts) -/

structure MaterialUIMapping where
  component : String
  props : List (String × String)
deriving DecidableEq, Repr

/-- An `IdentifiedComponent`; the open `properties` bag is modelled by the
keys the analysed code writes (`interactive`, `text`). -/
structure IdentifiedComponent where
  id : String
  type : String
  name : String
  description : String
  bounds : Bounds
  propInteractive : Bool
  propText : Option String := none
  materialUIMapping : MaterialUIMapping
  figmaNodeId : Option String := none
deriving DecidableEq, Repr

structure SpacingInfo where
  consistent : Bool
  units : List ℚ
deriving DecidableEq, Repr

structure LayoutAnalysis where
  structureKind : String
  responsive : Bool
  breakpoints : List String
  spacing : SpacingInfo
deriving DecidableEq, Repr

structure DesignColors where
  primary : String
  secondary : String
  background : String
  text : String
  accent : Option String := none
deriving DecidableEq, Repr

structure DesignTypography where
  fontFamily : String
  sizes : List ℚ
  weights : List ℚ
deriving DecidableEq, Repr

structure DesignSpacing where
  baseUnit : ℚ
  scale : List ℚ
deriving DecidableEq, Repr

structure DesignSystemAnalysis where
  colors : DesignColors
  typography : DesignTypography
  spacing : DesignSpacing
  borderRadius : List ℚ
deriving DecidableEq, Repr

structure GPTVisionAnalysis where
  components : List IdentifiedComponent
  layout : LayoutAnalysis
  designSystem : DesignSystemAnalysis
  confidence : ℚ
  suggestions : List String
deriving DecidableEq, Repr

/-- The decoded shape of the vision model's reply consumed by the
success path of `analyzeSemanticGroups` (each field read with `|| default`). -/
structure RawAnalysis where
  components : Option (List IdentifiedComponent) := none
  layout : Option LayoutAnalysis := none
  designSystem : Option DesignSystemAnalysis := none
  confidence : Option ℚ := none
  suggestions : Option (List String) := none
deriving DecidableEq, Repr

/-- JS runtime exceptions escaping the embedded vision service. -/
inductive JsError where
  | missingExtractColor
deriving DecidableEq, Repr

/-- Ascending insertion of one value into a sorted list. -/
def insSorted (x : ℚ) : List ℚ → List ℚ
  | [] => [x]
  | y :: ys => if x ≤ y then x :: y :: ys else y :: insSorted x ys

/-- Ascending numeric sort (JS `Array.from(set).sort((a, b) => a - b)` on the
deduplicated values; insertion sort is used because it evaluates in the
kernel, and on distinct values every correct ascending sort agrees). -/
def sortQ (l : List ℚ) : List ℚ := l.foldr insSorted []

/-- `getFallbackMaterialUIMappingForGroup`: fixed semantic-type to
Material-UI component table. -/
def getFallbackMaterialUIMappingForGroup (groupType : String) : MaterialUIMapping :=
  if groupType = "button" then { component := "Button", props := [("variant", "contained")] }
  else if groupType = "text" then { component := "Typography", props := [("variant", "body1")] }
  else if groupType = "card" then { component := "Card", props := [] }
  else if groupType = "navigation" then { component := "AppBar", props := [] }
  else if groupType = "input" then { component := "TextField", props := [] }
  else if groupType = "list" then { component := "List", props := [] }
  else if groupType = "image" then { component := "Avatar", props := [] }
  else if groupType = "container" then { component := "Box", props := [] }
  else { component := "Box", props := [] }

/-- `extractColorPaletteFromGroups`: iterates every group child and, when
`child.properties.fills` is truthy (any array, including an empty one),
calls `this.extractColor` — a method that is NOT defined on
`GPTVisionService` (it exists only in an older revision of the service), so
that call throws a `TypeError`.  When no child carries a `fills` field the
loop completes and the palette is empty. -/
def extractColorPaletteFromGroups (groups : List SemanticGroup) :
    Except JsError (List String) :=
  if groups.any (fun g => g.children.any (fun c => c.fills.isSome)) then
    Except.error JsError.missingExtractColor
  else Except.ok []

/-- JS truthiness of an optional number (`0` falsy). -/
def jsTruthyOptQ (x : Option ℚ) : Bool :=
  match x with
  | none => false
  | some v => !(v = 0)

/-- `extractTypographyFromGroups`: collect font sizes/weights of TEXT
children carrying a `style`, dedup (`Set`) and sort ascending; the last
child with a `fontFamily` wins.  The `|| [12, ...]` defaults in the source
are dead (an array is always truthy), so the collected lists are returned
as-is. -/
def extractTypographyFromGroups (groups : List SemanticGroup) :
    String × List ℚ × List ℚ :=
  let textStyles := groups.flatMap (fun g =>
    g.children.filterMap (fun c =>
      if c.type = "TEXT" then c.style.map (fun st => st) else none))
  let sizes := (textStyles.filterMap (fun st =>
    if jsTruthyOptQ st.fontSize then st.fontSize else none)).dedup
  let weights := (textStyles.filterMap (fun st =>
    if jsTruthyOptQ st.fontWeight then st.fontWeight else none)).dedup
  let fontFamily := ((textStyles.filterMap (fun st =>
    match st.fontFamily with
    | some f => if f = "" then none else some f
    | none => none)).getLast?).getD "Roboto"
  (fontFamily, sortQ sizes, sortQ weights)

/-- `extractSpacingFromGroups`: the four numeric members of each group's
`bounds` strictly between 0 and 100, dedup'd, sorted; `baseUnit` is the
smallest or 8. -/
def extractSpacingFromGroups (groups : List SemanticGroup) : ℚ × List ℚ :=
  let vals := groups.flatMap (fun g =>
    [g.bounds.x, g.bounds.y, g.bounds.width, g.bounds.height])
  let spacings := sortQ ((vals.filter (fun v => 0 < v && v < 100)).dedup)
  ((spacings.head?).getD 8, spacings.take 8)

/-- `extractBorderRadiusFromGroups`: truthy `cornerRadius` of all children,
dedup'd and sorted. -/
def extractBorderRadiusFromGroups (groups : List SemanticGroup) : List ℚ :=
  let radii := groups.flatMap (fun g =>
    g.children.filterMap (fun c =>
      if jsTruthyOptQ c.cornerRadius then c.cornerRadius else none))
  sortQ (radii.dedup)

/-- `extractBasicDesignSystemFromGroups`; propagates the `TypeError` of the
missing `extractColor`. -/
def extractBasicDesignSystemFromGroups (grouping : SemanticGroupingResult) :
    Except JsError DesignSystemAnalysis :=
  match extractColorPaletteFromGroups grouping.groups with
  | Except.error e => Except.error e
  | Except.ok colors =>
  let typo := extractTypographyFromGroups grouping.groups
  let spacing := extractSpacingFromGroups grouping.groups
  let borderRadius := extractBorderRadiusFromGroups grouping.groups
  Except.ok
    { colors :=
        { primary := (colors[0]?).getD "#1976d2"
          secondary := (colors[1]?).getD "#dc004e"
          background := "#ffffff"
          text := "#333333"
          accent := colors[2]? }
      typography :=
        { fontFamily := typo.1, sizes := typo.2.1, weights := typo.2.2 }
      spacing := { baseUnit := spacing.1, scale := spacing.2 }
      borderRadius := borderRadius }

/-- The component `createFallbackAnalysis` builds from one semantic group.
`properties` is `{ interactive: g.properties.interactive || false,
...g.properties }`, so a present `interactive` key wins and an absent one
leaves `false`. -/
def mkFallbackComponent (g : SemanticGroup) : IdentifiedComponent :=
  { id := g.id
    type := g.type
    name := g.name
    description := g.description
    bounds := g.bounds
    propInteractive := (g.properties.interactive).getD false
    propText := g.properties.text
    materialUIMapping := getFallbackMaterialUIMappingForGroup g.type
    figmaNodeId := (g.children.head?).map (·.id) }

/-- `createFallbackAnalysis` from gptVisionService.ts.  It runs inside the
`catch` block, so an exception it raises propagates to the caller. -/
def createFallbackAnalysis (semanticGrouping : SemanticGroupingResult) :
    Except JsError GPTVisionAnalysis :=
  match extractBasicDesignSystemFromGroups semanticGrouping with
  | Except.error e => Except.error e
  | Except.ok ds =>
  Except.ok
    { components := semanticGrouping.groups.map mkFallbackComponent
      layout :=
        { structureKind := "mixed", responsive := false
          breakpoints := ["xs", "sm", "md", "lg"]
          spacing := { consistent := false, units := [8, 16, 24] } }
      designSystem := ds
      confidence := max (mkRat 3 5) semanticGrouping.confidence
      suggestions := ["Consider using GPT Vision for more accurate visual analysis"] }

/-- Defaults the success path substitutes for absent reply fields
(gptVisionService.ts lines 154-160). -/
def defaultVisionLayout : LayoutAnalysis :=
  { structureKind := "mixed", responsive := false
    breakpoints := ["xs", "sm", "md", "lg"]
    spacing := { consistent := false, units := [8, 16, 24] } }

def defaultVisionDesignSystem : DesignSystemAnalysis :=
  { colors :=
      { primary := "#1976d2", secondary := "#dc004e"
        background := "#ffffff", text := "#333333" }
    typography := { fontFamily := "Roboto", sizes := [14, 16, 18, 24], weights := [400, 500, 700] }
    spacing := { baseUnit := 8, scale := [8, 16, 24, 32] }
    borderRadius := [4, 8, 12] }

/-- The object returned on the success path of `analyzeSemanticGroups`:
each field is the model's raw value with an `||` default.  The confidence
is NOT clamped here (the clamping `validateAndEnhanceAnalysis` is dead
code behind a TODO). -/
def successAnalysis (analysis : RawAnalysis) : GPTVisionAnalysis :=
  { components := analysis.components.getD []
    layout := analysis.layout.getD defaultVisionLayout
    designSystem := analysis.designSystem.getD defaultVisionDesignSystem
    confidence := jsOrQ analysis.confidence (mkRat 7 10)
    suggestions := analysis.suggestions.getD ["GPT Vision analysis completed"] }

/-- `analyzeSemanticGroups` from gptVisionService.ts.  `none` models every
failure caught by the `try`/`catch` (network error, non-success status,
unparsable or `null` JSON); `some a` is a reply whose fence-stripped
content parsed to `a`.  The `catch` handler delegates to
`createFallbackAnalysis`, whose own exceptions propagate. -/
def analyzeSemanticGroups (outcome : Option RawAnalysis)
    (semanticGrouping : SemanticGroupingResult) :
    Except JsError GPTVisionAnalysis :=
  match outcome with
  | none => createFallbackAnalysis semanticGrouping
  | some a => Except.ok (successAnalysis a)

/-! ## Code-fence stripping (gptVisionService.ts line 140)

`content.replace(/^` ``` `json\s*/g, '').replace(/\s*` ``` `$/g, '')`:
remove a literal triple-backtick-`json` prefix plus following whitespace,
and trailing whitespace plus a closing triple-backtick suffix. -/

/-- The characters of "```json" (backticks written via code points). -/
def fencePreChars : List Char :=
  [backquoteChar, backquoteChar, backquoteChar, 'j', 's', 'o', 'n']

/-- The characters of "```". -/
def fenceChars : List Char := [backquoteChar, backquoteChar, backquoteChar]

/-- The vision service's fence-stripping `replace` chain. -/
def stripFence (content : String) : String :=
  let cs := content.data
  let cs1 :=
    if strStarts fencePreChars cs then (cs.drop 7).dropWhile isWsChar else cs
  let rcs := cs1.reverse
  let cs2 :=
    if strStarts fenceChars rcs then ((rcs.drop 3).dropWhile isWsChar).reverse
    else cs1
  String.mk cs2

/-- A model reply that wraps a JSON body in a markdown code fence:
"```json\n" ++ body ++ "\n```". -/
def fenceWrap (body : String) : String :=
  String.mk (fencePreChars ++ '\n' :: body.data ++ '\n' :: fenceChars)

/-! ## Comparison metrics (analysisComparison.ts)

Numbers are exact rationals; JS division is modelled by total rational
division (the claims under verification keep denominators non-zero). -/

structure ImprovementMetrics where
  componentCount : ℤ
  confidenceChange : ℚ
  processingEfficiency : ℚ
deriving DecidableEq, Repr

structure CoverageMetrics where
  textElementsCovered : ℕ
  interactiveElementsCovered : ℕ
  structuralElementsCovered : ℕ
deriving DecidableEq, Repr

structure AccuracyMetrics where
  stage3AAccuracy : ℚ
  stage3BAccuracy : ℚ
  overallImprovement : ℚ
deriving DecidableEq, Repr

structure PerformanceMetrics where
  stage3ATime : ℚ
  stage3BTime : ℚ
  totalTime : ℚ
deriving DecidableEq, Repr

structure ComparisonMetrics where
  improvement : ImprovementMetrics
  coverage : CoverageMetrics
  accuracy : AccuracyMetrics
  performance : PerformanceMetrics
deriving DecidableEq, Repr

/-- `countElementType`. -/
def countElementType (components : List IdentifiedComponent) (types : List String) : ℕ :=
  (components.filter (fun c => c.type ∈ types)).length

/-- `estimateAccuracy` on a `SemanticGroupingResult` (the `'groups' in result`
branch). -/
def estimateAccuracyGrouping (result : SemanticGroupingResult) : ℚ :=
  let completenessScore := min (qdiv (ratOfNat result.groups.length) 8) 1
  qmul (qdiv (qadd completenessScore result.confidence) 2) 100

/-- `estimateAccuracy` on a `GPTVisionAnalysis`. -/
def estimateAccuracyVision (result : GPTVisionAnalysis) : ℚ :=
  let completenessScore := min (qdiv (ratOfNat result.components.length) 8) 1
  let materialUIMappingScore :=
    qdiv (ratOfNat (result.components.filter
        (fun c => c.materialUIMapping.component ≠ "")).length)
      (ratOfNat result.components.length)
  qmul (qdiv (qadd (qadd completenessScore result.confidence) materialUIMappingScore) 3) 100

/-- `calculateEfficiency`. -/
def calculateEfficiency (semanticGrouping : SemanticGroupingResult)
    (gptAnalysis : GPTVisionAnalysis) : ℚ :=
  let semanticEfficiency :=
    qdiv (ratOfNat semanticGrouping.groups.length)
      (qdiv semanticGrouping.processingTime 1000)
  let visionEfficiency := qdiv (ratOfNat gptAnalysis.components.length) 60
  qmul (qdiv (qsub visionEfficiency semanticEfficiency) semanticEfficiency) 100

/-- `compareStageResults` from analysisComparison.ts. -/
def compareStageResults (semanticGrouping : SemanticGroupingResult)
    (gptAnalysis : GPTVisionAnalysis) (stage3BProcessingTime : ℚ) :
    ComparisonMetrics :=
  let componentCountImprovement : ℤ :=
    (gptAnalysis.components.length : ℤ) - (semanticGrouping.groups.length : ℤ)
  let confidenceChange := qsub gptAnalysis.confidence semanticGrouping.confidence
  let stage3AAccuracy := estimateAccuracyGrouping semanticGrouping
  let stage3BAccuracy := estimateAccuracyVision gptAnalysis
  { improvement :=
      { componentCount := componentCountImprovement
        confidenceChange := qmul confidenceChange 100
        processingEfficiency := calculateEfficiency semanticGrouping gptAnalysis }
    coverage :=
      { textElementsCovered := countElementType gptAnalysis.components ["text"]
        interactiveElementsCovered :=
          countElementType gptAnalysis.components ["button", "input", "navigation"]
        structuralElementsCovered :=
          countElementType gptAnalysis.components ["card", "container", "list"] }
    accuracy :=
      { stage3AAccuracy := stage3AAccuracy
        stage3BAccuracy := stage3BAccuracy
        overallImprovement := stage3BAccuracy - stage3AAccuracy }
    performance :=
      { stage3ATime := semanticGrouping.processingTime
        stage3BTime := stage3BProcessingTime
        totalTime := qadd semanticGrouping.processingTime stage3BProcessingTime } }

/-! ## Style mapper (styleMapperService.ts)

`mapComponentsToMui` is a pure function of its three arguments.  CSS
template strings built from numbers (padding, border, shadow join) are
modelled structurally to avoid committing to JS number formatting; this
preserves all the information flowing into them. -/

structure DesignTokens where
  colors : List String
  typography : List String
  spacing : List ℚ
deriving DecidableEq, Repr

inductive SxVal where
  | num (v : ℚ)
  | str (s : String)
  | paddingQuad (top right bottom left : ℚ)
  | borderSpec (width : ℚ) (style color : String)
  | shadowJoin (shadows : List String)
deriving DecidableEq, Repr

inductive PVal where
  | str (s : String)
  | num (v : ℚ)
  | bool (b : Bool)
  | obj (fields : List (String × PVal))

structure MappedComponent where
  id : String
  name : String
  muiComponent : String
  props : List (String × PVal)
  sx : List (String × SxVal)
  content : Option String := none
  imageUrl : Option String := none

structure TypographyEntry where
  fontFamily : String
  fontWeight : String
  fontSize : String
deriving DecidableEq, Repr

structure DesignSystem where
  colors : List (String × String)
  typography : List (String × TypographyEntry)
  spacing : List ℚ
deriving DecidableEq, Repr

structure StyleMapping where
  components : List MappedComponent
  designSystem : DesignSystem

/-- JS object property assignment: overwrite in place or append. -/
def jsSet {α : Type} (l : List (String × α)) (k : String) (v : α) :
    List (String × α) :=
  if l.any (fun p => p.1 = k) then
    l.map (fun p => if p.1 = k then (k, v) else p)
  else l ++ [(k, v)]

/-- JS whitespace removal for `.replace(/\s/g, '')`. -/
def stripSpaces (s : String) : String :=
  String.mk (s.data.filter (fun c => !isWsChar c))

/-- `buildDesignSystem`: classify each color token, index typography tokens
by their dash-split parts (missing parts read `undefined`, as in JS
destructuring), copy the spacing list. -/
def buildDesignSystem (designTokens : DesignTokens) : DesignSystem :=
  let colors := (designTokens.colors.enum).foldl (fun acc cv =>
    let color := cv.2
    let index := cv.1
    if inclL color "ff7f00" || inclL color "ff8c00" then
      jsSet (jsSet acc "primary" color) "accent" color
    else if inclL color "ffffff" then jsSet acc "white" color
    else if inclL color "000000" then jsSet acc "black" color
    else jsSet acc ("color" ++ toString index) color) []
  let typography := designTokens.typography.foldl (fun acc typo =>
    let parts := typo.splitOn "-"
    let family := (parts[0]?).getD "undefined"
    let weight := (parts[1]?).getD "undefined"
    let size := (parts[2]?).getD "undefined"
    let key := stripSpaces (family ++ weight ++ size)
    jsSet acc key
      { fontFamily := family, fontWeight := weight, fontSize := size ++ "px" }) []
  { colors := colors, typography := typography, spacing := designTokens.spacing }

/-- `determineMuiComponent`: ordered keyword/type rules. -/
def determineMuiComponent (component : ComponentAnalysis) : String :=
  let name := strLower component.name
  if strIncludes name "button" || strIncludes name "btn" ||
      (strIncludes name "pay" && strIncludes name "confirm") ||
      strIncludes name "add new" then "Button"
  else if strIncludes name "card" || strIncludes name "method" ||
      strIncludes name "visa" || strIncludes name "mastercard" ||
      strIncludes name "paypal" || strIncludes name "cash" then "Card"
  else if component.type = "TEXT" || strIncludes name "text" ||
      strIncludes name "title" || strIncludes name "total" ||
      strIncludes name "payment" then "Typography"
  else if component.type = "RECTANGLE" &&
      ((component.styling.map (·.images)).getD false) then "Box"
  else if component.type = "FRAME" || component.type = "GROUP" then "Box"
  else "Box"

/-- `buildSxStyling`: dimensions, colors, typography, spacing, borders and
shadows, each key set only when the source value is present (and, for
numeric border fields, truthy). -/
def buildSxStyling (styling : Option Styling) (bounds : Bounds) :
    List (String × SxVal) :=
  let sx : List (String × SxVal) :=
    [("width", SxVal.num bounds.width), ("height", SxVal.num bounds.height),
     ("minWidth", SxVal.num bounds.width), ("minHeight", SxVal.num bounds.height)]
  let sx := match styling >>= (·.colors) with
    | none => sx
    | some c =>
      let sx := match c.background with
        | none => sx
        | some b => jsSet sx "backgroundColor" (SxVal.str b)
      let sx := match c.text with
        | none => sx
        | some t => jsSet sx "color" (SxVal.str t)
      match c.border with
      | none => sx
      | some b => jsSet sx "borderColor" (SxVal.str b)
  let sx := match styling >>= (·.typography) with
    | none => sx
    | some t =>
      let sx := match t.fontFamily with
        | none => sx
        | some f => jsSet sx "fontFamily" (SxVal.str f)
      let sx := match t.fontSize with
        | none => sx
        | some f => if f = 0 then sx else jsSet sx "fontSize" (SxVal.num f)
      let sx := match t.fontWeight with
        | none => sx
        | some f => if f = 0 then sx else jsSet sx "fontWeight" (SxVal.num f)
      match t.textAlign with
      | none => sx
      | some a => jsSet sx "textAlign" (SxVal.str a)
  let sx := match styling >>= (·.spacing) >>= (·.padding) with
    | none => sx
    | some p => jsSet sx "padding" (SxVal.paddingQuad p.top p.right p.bottom p.left)
  let sx := match styling >>= (·.borders) with
    | none => sx
    | some b =>
      let sx := match b.radius with
        | none => sx
        | some r => if r = 0 then sx else jsSet sx "borderRadius" (SxVal.num r)
      match b.width with
      | none => sx
      | some w =>
        if w = 0 then sx
        else jsSet sx "border"
          (SxVal.borderSpec w (jsOrS b.style "solid") (jsOrS b.color "#000"))
  match styling.map (·.shadows) with
  | none => sx
  | some shadows =>
    if shadows.isEmpty then sx else jsSet sx "boxShadow" (SxVal.shadowJoin shadows)

/-- `buildComponentProps`: button, payment-card and typography props. -/
def buildComponentProps (component : ComponentAnalysis) : List (String × PVal) :=
  let name := strLower component.name
  let props : List (String × PVal) := []
  let props :=
    if strIncludes name "button" || strIncludes name "btn" then
      let props := jsSet props "variant"
        (PVal.str (if strIncludes name "primary" || strIncludes name "pay" then
          "contained" else "outlined"))
      let props := jsSet props "size"
        (PVal.str (if 60 < component.bounds.height then "large" else "medium"))
      if strIncludes name "pay" || strIncludes name "confirm" then
        jsSet (jsSet (jsSet props "variant" (PVal.str "contained"))
          "color" (PVal.str "primary")) "fullWidth" (PVal.bool true)
      else props
    else props
  let props :=
    if strIncludes name "method" || strIncludes name "visa" ||
        strIncludes name "mastercard" || strIncludes name "paypal" ||
        strIncludes name "cash" then
      let props := jsSet props "variant" (PVal.str "outlined")
      let sxPrev : List (String × PVal) :=
        match (props.find? (fun p => p.1 = "sx")).map (·.2) with
        | some (PVal.obj fs) => fs
        | _ => []
      let sxNew := jsSet (jsSet sxPrev "cursor" (PVal.str "pointer"))
        "&:hover" (PVal.obj [("borderColor", PVal.str "primary.main")])
      let props := jsSet props "sx" (PVal.obj sxNew)
      if strIncludes name "mastercard" then
        let sxNew2 := jsSet (jsSet (jsSet sxNew "borderColor" (PVal.str "orange"))
          "borderWidth" (PVal.num 2)) "position" (PVal.str "relative")
        jsSet props "sx" (PVal.obj sxNew2)
      else props
    else props
  if component.type = "TEXT" then
    if strIncludes name "total" || strIncludes name "$96" then
      jsSet (jsSet props "variant" (PVal.str "h4")) "fontWeight" (PVal.str "bold")
    else if strIncludes name "payment" && !(strIncludes name "method") then
      jsSet props "variant" (PVal.str "h5")
    else jsSet props "variant" (PVal.str "body1")
  else props

/-- `extractTextContent`: literal characters of a TEXT node, else fixed
name-keyed placeholders. -/
def extractTextContent (component : ComponentAnalysis) : Option String :=
  if component.type = "TEXT" &&
      ((component.characters.map (fun s => !(s = ""))).getD false) then
    component.characters
  else
    let name := strLower component.name
    if strIncludes name "pay" && strIncludes name "confirm" then some "PAY & CONFIRM"
    else if strIncludes name "add new" then some "+ ADD NEW"
    else if strIncludes name "total" then some "TOTAL: $96"
    else if strIncludes name "select payment method" then some "Select Payment Method"
    else none

/-- `mapSingleComponent` (never returns null, so the `.filter(Boolean)` in
the caller keeps every element). -/
def mapSingleComponent (component : ComponentAnalysis)
    (assetUrls : List (String × String)) : MappedComponent :=
  { id := component.id
    name := component.name
    muiComponent := determineMuiComponent component
    props := buildComponentProps component
    sx := buildSxStyling component.styling component.bounds
    content := extractTextContent component
    imageUrl := ((assetUrls.find? (fun p => p.1 = component.id)).map (·.2)) }

/-- `mapComponentsToMui` from styleMapperService.ts: build the design
system, map every component. -/
def mapComponentsToMui (components : List ComponentAnalysis)
    (designTokens : DesignTokens) (assetUrls : List (String × String)) :
    StyleMapping :=
  let designSystem := buildDesignSystem designTokens
  { components := components.map (fun c => mapSingleComponent c assetUrls)
    designSystem := designSystem }

/-! ## Helper lemmas -/

lemma clampConf_bounds (c : ℚ) : 1/10 ≤ clampConf c ∧ clampConf c ≤ 1 := by
  constructor
  · rw [← mkRat_tenth]
    exact le_max_left _ _
  · refine max_le ?_ (min_le_left _ _)
    rw [mkRat_tenth]
    norm_num

lemma mkRat_half : mkRat 1 2 = (1/2 : ℚ) := by
  rw [Rat.mkRat_eq_div]
  norm_num

lemma validateAndEnhanceResult_partition (raw : RawGroupingResult)
    (comps : List ComponentAnalysis) (pt : ℚ) :
    (validateAndEnhanceResult raw comps pt).groupedNodes +
      (validateAndEnhanceResult raw comps pt).ungroupedNodes.length =
      (validateAndEnhanceResult raw comps pt).totalNodes := by
  simp only [validateAndEnhanceResult]
  exact Nat.sub_add_cancel (List.length_filter_le _ _)

lemma createFallbackResult_partition (comps : List ComponentAnalysis) (pt : ℚ) :
    (createFallbackResult comps pt).groupedNodes +
      (createFallbackResult comps pt).ungroupedNodes.length =
      (createFallbackResult comps pt).totalNodes := by
  simp only [createFallbackResult, List.length_drop]
  omega

lemma fallbackGroupsAux_eq_map (comps : List ComponentAnalysis) (seen : List String)
    (hnd : (comps.map (·.id)).Nodup) (hseen : ∀ c ∈ comps, c.id ∉ seen) :
    fallbackGroupsAux comps seen = comps.map mkFallbackGroup := by
  induction comps generalizing seen with
  | nil => rfl
  | cons c rest ih =>
    simp only [List.map_cons, List.nodup_cons] at hnd
    have hc : c.id ∉ seen := hseen c (List.mem_cons_self c rest)
    simp only [fallbackGroupsAux, if_neg hc, List.map_cons]
    refine congrArg _ (ih _ hnd.2 ?_)
    intro c' hc' hmem
    rcases List.mem_cons.mp hmem with h | h
    · exact hnd.1 (h ▸ List.mem_map_of_mem (·.id) hc')
    · exact hseen c' (List.mem_cons_of_mem _ hc') h

/-! ## C2: node-count partition invariant -/

/-- C2: every run of `groupComponents` — model path, auto-repair path or
fallback path — returns a result with
`groupedNodes + |ungroupedNodes| = totalNodes`, and `totalNodes` is the
number of input descriptors. -/
theorem groupComponents_node_partition (o : FetchOutcome)
    (comps : List ComponentAnalysis) (pt : ℚ) :
    (groupComponents o comps pt).groupedNodes +
        (groupComponents o comps pt).ungroupedNodes.length =
        (groupComponents o comps pt).totalNodes ∧
      (groupComponents o comps pt).totalNodes = comps.length := by
  cases o with
  | fail =>
    exact ⟨createFallbackResult_partition comps pt, rfl⟩
  | ok content =>
    simp only [groupComponents]
    cases jsonParse content with
    | none => exact ⟨createFallbackResult_partition comps pt, rfl⟩
    | some j =>
      dsimp only
      cases decodeRawGrouping j with
      | none => exact ⟨createFallbackResult_partition comps pt, rfl⟩
      | some raw =>
        dsimp only
        exact ⟨validateAndEnhanceResult_partition raw comps pt, rfl⟩

/-! ## C4: deterministic fallback grouping -/

/-- C4: when the reasoning call fails, `createFallbackResult` wraps each of
the first 15 descriptors (traversal order) in its own single-member group
typed by the fixed node-kind table, puts the remaining descriptors into
`ungroupedNodes`, and returns confidence exactly 0.5; 20 descriptors give
exactly 15 single-member groups and 5 ungrouped nodes.  The hypothesis
states the data model's guarantee that descriptor ids are unique. -/
theorem createFallbackResult_spec (comps : List ComponentAnalysis) (pt : ℚ)
    (hnd : (comps.map (·.id)).Nodup) :
    (createFallbackResult comps pt).confidence = 1/2 ∧
      (createFallbackResult comps pt).groups = (comps.take 15).map mkFallbackGroup ∧
      (createFallbackResult comps pt).ungroupedNodes = comps.drop 15 ∧
      (∀ g ∈ (createFallbackResult comps pt).groups, g.children.length = 1 ∧
        g.confidence = 1/2) ∧
      (∀ t, mapTypeToSemantic t =
        if t = "TEXT" then "text"
        else if t = "RECTANGLE" ∨ t = "FRAME" ∨ t = "GROUP" then "container"
        else "other") ∧
      (comps.length = 20 → (createFallbackResult comps pt).groups.length = 15 ∧
        (createFallbackResult comps pt).ungroupedNodes.length = 5) := by
  have hmap : fallbackGroupsAux comps [] = comps.map mkFallbackGroup :=
    fallbackGroupsAux_eq_map comps [] hnd (by intro c _ h; exact absurd h (List.not_mem_nil _))
  have hgroups : (createFallbackResult comps pt).groups =
      (comps.take 15).map mkFallbackGroup := by
    simp only [createFallbackResult, hmap]
    exact (List.map_take _ _ _).symm
  refine ⟨mkRat_half, hgroups, rfl, ?_, ?_, ?_⟩
  · intro g hg
    rw [hgroups] at hg
    rcases List.mem_map.mp hg with ⟨c, _, rfl⟩
    exact ⟨rfl, mkRat_half⟩
  · intro t
    by_cases h1 : t = "TEXT" <;> by_cases h2 : t = "RECTANGLE" <;>
      by_cases h3 : t = "FRAME" <;> by_cases h4 : t = "GROUP" <;>
      by_cases h5 : t = "COMPONENT" <;> by_cases h6 : t = "INSTANCE" <;>
      by_cases h7 : t = "ELLIPSE" <;>
      simp_all [mapTypeToSemantic]
  · intro h20
    constructor
    · rw [hgroups, List.length_map, List.length_take, h20]
      decide
    · simp only [createFallbackResult, List.length_drop, h20]

/-- A run of 20 synthetic descriptors with distinct ids. -/
def mkNumComp (n : ℕ) : ComponentAnalysis :=
  { id := "node-" ++ toString n, name := "Node " ++ toString n, type := "TEXT"
    bounds := { x := 0, y := (n : ℚ), width := 10, height := 10 } }

def comps20 : List ComponentAnalysis := (List.range 20).map mkNumComp

/-- Witness for C4: on the 20-descriptor run the fallback yields 15
single-member groups, 5 ungrouped nodes and confidence 0.5. -/
theorem createFallbackResult_spec_witness :
    ((comps20.map (fun c => c.id)).Nodup) ∧
      (createFallbackResult comps20 0).groups.length = 15 ∧
      (createFallbackResult comps20 0).ungroupedNodes.length = 5 ∧
      (createFallbackResult comps20 0).confidence = 1/2 :=
  ⟨by decide,
    ((createFallbackResult_spec comps20 0 (by decide)).2.2.2.2.2 (by decide)).1,
    ((createFallbackResult_spec comps20 0 (by decide)).2.2.2.2.2 (by decide)).2,
    (createFallbackResult_spec comps20 0 (by decide)).1⟩

/-! ## Auto-repair structure lemmas -/

lemma autoMapStep_of_nonempty (pool : List ComponentAnalysis) (g : SemanticGroup)
    (h : g.children ≠ []) : autoMapStep pool g = (g, pool) := by
  simp only [autoMapStep, List.isEmpty_iff, if_neg h]

lemma autoMapStep_of_empty (pool : List ComponentAnalysis) (g : SemanticGroup)
    (h : g.children = []) :
    autoMapStep pool g =
      ({ g with children := repairSelect g pool },
        (repairSelect g pool).foldl (fun p c => p.erase c) pool) := by
  simp only [autoMapStep, List.isEmpty_iff, if_pos h]

lemma foldl_erase_eq_diff (pool mapped : List ComponentAnalysis) :
    mapped.foldl (fun p c => p.erase c) pool = pool.diff mapped := by
  rw [List.diff_eq_foldl]

lemma repairSelect_sublist (g : SemanticGroup) (pool : List ComponentAnalysis) :
    List.Sublist (repairSelect g pool) pool := by
  unfold repairSelect
  dsimp only
  split_ifs <;>
    first
      | exact List.filter_sublist pool
      | exact (List.take_sublist _ _).trans (List.filter_sublist pool)

lemma autoMapStep_pool_sublist (pool : List ComponentAnalysis) (g : SemanticGroup) :
    List.Sublist (autoMapStep pool g).2 pool := by
  by_cases h : g.children = []
  · rw [autoMapStep_of_empty pool g h, foldl_erase_eq_diff]
    exact List.diff_sublist _ _
  · rw [autoMapStep_of_nonempty pool g h]

lemma autoMapGo_length (gs : List SemanticGroup) (pool : List ComponentAnalysis) :
    (autoMapGo gs pool).length = gs.length := by
  induction gs generalizing pool with
  | nil => rfl
  | cons g rest ih => simp [autoMapGo, ih]

lemma autoMapGo_get_nonempty (gs : List SemanticGroup) (pool : List ComponentAnalysis)
    (i : ℕ) (g : SemanticGroup) (hg : gs[i]? = some g) (h : g.children ≠ []) :
    (autoMapGo gs pool)[i]? = some g := by
  induction gs generalizing pool i with
  | nil => simp at hg
  | cons hd tl ih =>
    cases i with
    | zero =>
      simp only [List.getElem?_cons_zero, Option.some.injEq] at hg
      subst hg
      simp [autoMapGo, autoMapStep_of_nonempty pool hd h]
    | succ i' =>
      simp only [List.getElem?_cons_succ] at hg
      simpa [autoMapGo] using ih _ i' hg

lemma autoMapGo_get_repair (gs : List SemanticGroup) (pool : List ComponentAnalysis)
    (i : ℕ) (g g' : SemanticGroup) (hg : gs[i]? = some g) (h : g.children = [])
    (hg' : (autoMapGo gs pool)[i]? = some g') :
    g' = { g with children := g'.children } := by
  induction gs generalizing pool i with
  | nil => simp at hg
  | cons hd tl ih =>
    cases i with
    | zero =>
      simp only [List.getElem?_cons_zero, Option.some.injEq] at hg
      subst hg
      rw [show autoMapGo (hd :: tl) pool =
          (autoMapStep pool hd).1 :: autoMapGo tl (autoMapStep pool hd).2 from rfl,
        autoMapStep_of_empty pool hd h] at hg'
      simp only [List.getElem?_cons_zero, Option.some.injEq] at hg'
      subst hg'
      rfl
    | succ i' =>
      simp only [List.getElem?_cons_succ] at hg
      rw [show autoMapGo (hd :: tl) pool =
          (autoMapStep pool hd).1 :: autoMapGo tl (autoMapStep pool hd).2 from rfl] at hg'
      simp only [List.getElem?_cons_succ] at hg'
      exact ih _ i' hg hg'

lemma autoMapGo_children_sub_pool (gs : List SemanticGroup)
    (pool : List ComponentAnalysis) (j : ℕ) (g g' : SemanticGroup)
    (hg : gs[j]? = some g) (h : g.children = [])
    (hg' : (autoMapGo gs pool)[j]? = some g') :
    ∀ c ∈ g'.children, c ∈ pool := by
  induction gs generalizing pool j with
  | nil => simp at hg
  | cons hd tl ih =>
    cases j with
    | zero =>
      simp only [List.getElem?_cons_zero, Option.some.injEq] at hg
      subst hg
      rw [show autoMapGo (hd :: tl) pool =
          (autoMapStep pool hd).1 :: autoMapGo tl (autoMapStep pool hd).2 from rfl,
        autoMapStep_of_empty pool hd h] at hg'
      simp only [List.getElem?_cons_zero, Option.some.injEq] at hg'
      subst hg'
      exact fun c hc => (repairSelect_sublist hd pool).subset hc
    | succ j' =>
      simp only [List.getElem?_cons_succ] at hg
      rw [show autoMapGo (hd :: tl) pool =
          (autoMapStep pool hd).1 :: autoMapGo tl (autoMapStep pool hd).2 from rfl] at hg'
      simp only [List.getElem?_cons_succ] at hg'
      exact fun c hc =>
        (autoMapStep_pool_sublist pool hd).subset (ih _ j' hg hg' c hc)

lemma not_mem_diff_of_mem {c : ComponentAnalysis} :
    ∀ (l2 l : List ComponentAnalysis), l.Nodup → c ∈ l2 → c ∉ l.diff l2 := by
  intro l2
  induction l2 with
  | nil => intro l _ hc; exact absurd hc (List.not_mem_nil c)
  | cons a as ih =>
    intro l hnd hc hdiff
    rw [List.diff_cons] at hdiff
    rcases List.mem_cons.mp hc with rfl | hc'
    · have hmem : c ∈ l.erase c := (List.diff_sublist _ _).subset hdiff
      have := (List.Nodup.mem_erase_iff hnd).mp hmem
      exact this.1 rfl
    · exact ih (l.erase a) (hnd.erase a) hc' hdiff

lemma autoMapGo_disjoint (gs : List SemanticGroup) (pool : List ComponentAnalysis)
    (hnd : pool.Nodup) (i j : ℕ) (gi gj gi' gj' : SemanticGroup) (hij : i < j)
    (hgi : gs[i]? = some gi) (hei : gi.children = [])
    (hgj : gs[j]? = some gj) (hej : gj.children = [])
    (hi' : (autoMapGo gs pool)[i]? = some gi')
    (hj' : (autoMapGo gs pool)[j]? = some gj') :
    ∀ c ∈ gi'.children, c ∉ gj'.children := by
  induction gs generalizing pool i j with
  | nil => simp at hgi
  | cons hd tl ih =>
    cases i with
    | zero =>
      simp only [List.getElem?_cons_zero, Option.some.injEq] at hgi
      subst hgi
      obtain ⟨j', rfl⟩ : ∃ j', j = j' + 1 := ⟨j - 1, by omega⟩
      simp only [List.getElem?_cons_succ] at hgj
      rw [show autoMapGo (hd :: tl) pool =
          (autoMapStep pool hd).1 :: autoMapGo tl (autoMapStep pool hd).2 from rfl,
        autoMapStep_of_empty pool hd hei] at hi' hj'
      simp only [List.getElem?_cons_zero, Option.some.injEq,
        List.getElem?_cons_succ] at hi' hj'
      subst hi'
      intro c hc hcj
      have hcpool : c ∈ pool.diff (repairSelect hd pool) := by
        have := autoMapGo_children_sub_pool tl _ j' gj gj' hgj hej hj' c hcj
        rwa [foldl_erase_eq_diff] at this
      exact not_mem_diff_of_mem _ pool hnd hc hcpool
    | succ i' =>
      obtain ⟨j', rfl⟩ : ∃ j', j = j' + 1 := ⟨j - 1, by omega⟩
      simp only [List.getElem?_cons_succ] at hgi hgj
      rw [show autoMapGo (hd :: tl) pool =
          (autoMapStep pool hd).1 :: autoMapGo tl (autoMapStep pool hd).2 from rfl] at hi' hj'
      simp only [List.getElem?_cons_succ] at hi' hj'
      exact ih _ ((autoMapStep_pool_sublist pool hd).nodup hnd) i' j'
        (by omega) hgi hgj hi' hj'

/-! ## Spatial clustering (findSpatialClusters)

The source compares `Math.sqrt(dx*dx + dy*dy) < 100` where `dx`/`dy` are
the differences of the descriptors' `bounds.x`/`bounds.y` (top-left
corners).  Monotonicity of the square root lets the test be embedded as a
comparison of squares, keeping everything rational and decidable. -/

/-- The proximity test of `findSpatialClusters`: Euclidean distance of the
top-left corners below 100. -/
def closeBy (a b : ComponentAnalysis) : Bool :=
  let dx := qsub a.bounds.x b.bounds.x
  let dy := qsub a.bounds.y b.bounds.y
  qadd (qmul dx dx) (qmul dy dy) < 10000

/-- The inner `components.forEach` of `findSpatialClusters`: grow the
cluster with every not-yet-processed descriptor close to the seed. -/
def fscInner (seed : ComponentAnalysis) :
    List ComponentAnalysis → List ComponentAnalysis → List String →
      List ComponentAnalysis × List String
  | [], cluster, processed => (cluster, processed)
  | o :: rest, cluster, processed =>
    if o.id ∈ processed then fscInner seed rest cluster processed
    else if closeBy seed o then
      fscInner seed rest (cluster ++ [o]) (o.id :: processed)
    else fscInner seed rest cluster processed

/-- The outer `components.forEach` of `findSpatialClusters`: each
unprocessed descriptor seeds one candidate cluster; only clusters with
more than one member are kept. -/
def fscGo (all : List ComponentAnalysis) :
    List ComponentAnalysis → List String → List (List ComponentAnalysis)
  | [], _ => []
  | c :: rest, processed =>
    if c.id ∈ processed then fscGo all rest processed
    else
      let r := fscInner c all [c] (c.id :: processed)
      if 1 < r.1.length then r.1 :: fscGo all rest r.2
      else fscGo all rest r.2

/-- `findSpatialClusters` from semanticGroupingService.ts. -/
def findSpatialClusters (components : List ComponentAnalysis) :
    List (List ComponentAnalysis) :=
  fscGo components components []

/-- The spec's proximity relation: Euclidean distance of the descriptors'
centers below the 100px threshold (embedded as squared distances). -/
def centerDistLT (a b : ComponentAnalysis) : Prop :=
  let cx (c : ComponentAnalysis) := qadd c.bounds.x (qdiv c.bounds.width 2)
  let cy (c : ComponentAnalysis) := qadd c.bounds.y (qdiv c.bounds.height 2)
  let dx := qsub (cx a) (cx b)
  let dy := qsub (cy a) (cy b)
  qadd (qmul dx dx) (qmul dy dy) < 10000

instance (a b : ComponentAnalysis) : Decidable (centerDistLT a b) := by
  unfold centerDistLT
  exact inferInstance

/-- Edges of the spec's proximity graph over a descriptor list. -/
def specAdj (l : List ComponentAnalysis) (a b : ComponentAnalysis) : Prop :=
  a ∈ l ∧ b ∈ l ∧ centerDistLT a b

/-- Two descriptors lie in the same connected component of the spec's
proximity graph. -/
def specSameComponent (l : List ComponentAnalysis)
    (a b : ComponentAnalysis) : Prop :=
  Relation.ReflTransGen (specAdj l) a b

lemma closeBy_self (a : ComponentAnalysis) : closeBy a a = true := by
  simp only [closeBy, qsub_eq, qmul_eq, qadd_eq, sub_self, mul_zero, zero_mul,
    add_zero, decide_eq_true_eq]
  norm_num

lemma fscInner_spec (seed : ComponentAnalysis) :
    ∀ (all cluster0 : List ComponentAnalysis) (processed0 : List String),
      ∃ adds, (fscInner seed all cluster0 processed0).1 = cluster0 ++ adds ∧
        ∀ c ∈ adds, closeBy seed c = true := by
  intro all
  induction all with
  | nil =>
    intro c0 p0
    exact ⟨[], by simp [fscInner], by simp⟩
  | cons o rest ih =>
    intro c0 p0
    by_cases h1 : o.id ∈ p0
    · simpa [fscInner, h1] using ih c0 p0
    · by_cases h2 : closeBy seed o
      · obtain ⟨adds, heq, hall⟩ := ih (c0 ++ [o]) (o.id :: p0)
        refine ⟨o :: adds, ?_, ?_⟩
        · simp only [fscInner, if_neg h1, if_pos h2]
          rw [heq]
          simp
        · intro c hc
          rcases List.mem_cons.mp hc with rfl | hc'
          · exact h2
          · exact hall c hc'
      · simpa [fscInner, h1, h2] using ih c0 p0

lemma fscGo_mem (all : List ComponentAnalysis) :
    ∀ (lst : List ComponentAnalysis) (processed : List String)
      (cl : List ComponentAnalysis), cl ∈ fscGo all lst processed →
      ∃ seed adds, cl = seed :: adds ∧ 1 < cl.length ∧
        ∀ c ∈ cl, closeBy seed c = true := by
  intro lst
  induction lst with
  | nil => intro processed cl hcl; simp [fscGo] at hcl
  | cons c rest ih =>
    intro processed cl hcl
    by_cases h1 : c.id ∈ processed
    · exact ih _ cl (by simpa [fscGo, h1] using hcl)
    · simp only [fscGo, if_neg h1] at hcl
      by_cases h2 : 1 < (fscInner c all [c] (c.id :: processed)).1.length
      · rw [if_pos h2] at hcl
        rcases List.mem_cons.mp hcl with rfl | hcl'
        · obtain ⟨adds, heq, hall⟩ := fscInner_spec c all [c] (c.id :: processed)
          refine ⟨c, adds, by simpa using heq, h2, ?_⟩
          intro x hx
          rw [heq] at hx
          rcases List.mem_append.mp hx with hx' | hx'
          · rw [List.mem_singleton.mp hx']
            exact closeBy_self c
          · exact hall x hx'
        · exact ih _ cl hcl'
      · rw [if_neg h2] at hcl
        exact ih _ cl hcl

/-! ## Fixture descriptors and groups used by concrete instances -/

/-- The scenario descriptors at (10,10), (20,15) and (500,500). -/
def scA : ComponentAnalysis :=
  { id := "scA", name := "a", type := "TEXT"
    bounds := { x := 10, y := 10, width := 0, height := 0 } }

def scB : ComponentAnalysis :=
  { id := "scB", name := "b", type := "TEXT"
    bounds := { x := 20, y := 15, width := 0, height := 0 } }

def scC : ComponentAnalysis :=
  { id := "scC", name := "c", type := "TEXT"
    bounds := { x := 500, y := 500, width := 0, height := 0 } }

/-- A three-descriptor chain: consecutive distances 90, endpoints 180 apart. -/
def chA : ComponentAnalysis :=
  { id := "chA", name := "a", type := "TEXT"
    bounds := { x := 0, y := 0, width := 0, height := 0 } }

def chB : ComponentAnalysis :=
  { id := "chB", name := "b", type := "TEXT"
    bounds := { x := 90, y := 0, width := 0, height := 0 } }

def chC : ComponentAnalysis :=
  { id := "chC", name := "c", type := "TEXT"
    bounds := { x := 180, y := 0, width := 0, height := 0 } }

/-- A wide node whose center is close to `farB` though its corner is not. -/
def wideA : ComponentAnalysis :=
  { id := "wideA", name := "w", type := "RECTANGLE"
    bounds := { x := 0, y := 0, width := 100, height := 0 } }

def farB : ComponentAnalysis :=
  { id := "farB", name := "f", type := "TEXT"
    bounds := { x := 110, y := 0, width := 0, height := 0 } }

/-! ## C6: spatial clustering -/

/-- C6 counterexample: `findSpatialClusters` does not compute the connected
components of the spec's center-to-center proximity graph.  On the chain
(0,0), (90,0), (180,0) with threshold 100 the three descriptors form one
connected component, yet the function returns the single cluster
[chA, chB] and chC lies in no returned cluster.  Moreover the distance the
code uses is between top-left corners, not centers: `wideA` (100 wide, at
x=0) and `farB` (at x=110) are center-close but produce no cluster. -/
theorem findSpatialClusters_not_connected_components :
    findSpatialClusters [chA, chB, chC] = [[chA, chB]] ∧
      specSameComponent [chA, chB, chC] chA chC ∧
      (∀ cl ∈ findSpatialClusters [chA, chB, chC], chC ∉ cl) ∧
      findSpatialClusters [wideA, farB] = [] ∧
      centerDistLT wideA farB := by
  refine ⟨by decide, ?_, ?_, by decide, ?_⟩
  · exact @Relation.ReflTransGen.tail _ (specAdj [chA, chB, chC]) chA chB chC
      (Relation.ReflTransGen.single ⟨by decide, by decide, by decide⟩)
      ⟨by decide, by decide, by decide⟩
  · intro cl hcl
    rw [show findSpatialClusters [chA, chB, chC] = [[chA, chB]] from by decide] at hcl
    rw [List.mem_singleton.mp hcl]
    decide
  · decide

/-- C6 (amended): `findSpatialClusters` is a single-pass greedy seeding:
each unprocessed descriptor in order seeds a cluster collecting the
remaining unprocessed descriptors whose top-left corner lies within 100px
Euclidean distance of the seed's (not transitively, and not
center-to-center); only clusters with at least two members are returned.
On the scenario descriptors at (10,10), (20,15), (500,500) this yields
exactly one 2-member cluster, with the third descriptor in no cluster. -/
theorem findSpatialClusters_greedy_spec :
    (∀ (comps cl : List ComponentAnalysis), cl ∈ findSpatialClusters comps →
      2 ≤ cl.length ∧ ∃ seed adds, cl = seed :: adds ∧
        ∀ c ∈ cl, closeBy seed c = true) ∧
      findSpatialClusters [scA, scB, scC] = [[scA, scB]] ∧
      (∀ cl ∈ findSpatialClusters [scA, scB, scC], scC ∉ cl) := by
  refine ⟨?_, by decide, ?_⟩
  · intro comps cl hcl
    obtain ⟨seed, adds, hshape, hlen, hclose⟩ := fscGo_mem comps comps [] cl hcl
    exact ⟨hlen, seed, adds, hshape, hclose⟩
  · intro cl hcl
    rw [show findSpatialClusters [scA, scB, scC] = [[scA, scB]] from by decide] at hcl
    rw [List.mem_singleton.mp hcl]
    decide

/-- Witness for C6 (amended): the general cluster shape applied to the
concrete scenario run and its single returned cluster. -/
theorem findSpatialClusters_greedy_spec_witness :
    ([scA, scB] ∈ findSpatialClusters [scA, scB, scC]) ∧
      2 ≤ ([scA, scB] : List ComponentAnalysis).length :=
  ⟨by decide,
    (findSpatialClusters_greedy_spec.1 [scA, scB, scC] [scA, scB] (by decide)).1⟩

/-! ## Fixtures for the auto-repair instances -/

def cmpX : ComponentAnalysis :=
  { id := "x1", name := "Total Label", type := "TEXT"
    bounds := { x := 20, y := 450, width := 100, height := 20 }
    characters := some "$96" }

def cmpY : ComponentAnalysis :=
  { id := "y1", name := "Pay Button", type := "RECTANGLE"
    bounds := { x := 20, y := 520, width := 300, height := 48 } }

def cmpZ : ComponentAnalysis :=
  { id := "z1", name := "Back", type := "INSTANCE"
    bounds := { x := 0, y := 10, width := 40, height := 40 } }

def grpHeaderFull : SemanticGroup :=
  { id := "g-h", name := "Header Section", type := "container", description := ""
    bounds := { x := 0, y := 0, width := 375, height := 100 }
    children := [cmpZ], properties := {}, confidence := mkRat 9 10 }

def grpTotalEmpty : SemanticGroup :=
  { id := "g-t", name := "Total Display", type := "card", description := ""
    bounds := { x := 24, y := 340, width := 327, height := 60 }
    children := [], properties := {}, confidence := mkRat 9 10 }

def grpActionEmpty : SemanticGroup :=
  { id := "g-a", name := "Primary Action Button", type := "button", description := ""
    bounds := { x := 24, y := 500, width := 327, height := 48 }
    children := [], properties := {}, confidence := mkRat 9 10 }

/-- The repaired total-display group: it claims the `$96` text node. -/
def gTval : SemanticGroup := { grpTotalEmpty with children := [cmpX] }

/-- The repaired action group: it claims the wide pay button. -/
def gAval : SemanticGroup := { grpActionEmpty with children := [cmpY] }

/-! ## C10: auto-repair frame conditions -/

/-- C10: `autoMapComponentsToGroups` preserves the group count; a group
whose children are non-empty is returned completely unchanged (all
fields), and a repaired group differs from its input at most in the
`children` field. -/
theorem autoMap_modifies_only_empty_children (groups : List SemanticGroup)
    (comps : List ComponentAnalysis) :
    (autoMapComponentsToGroups groups comps).length = groups.length ∧
      (∀ (i : ℕ) (g : SemanticGroup), groups[i]? = some g → g.children ≠ [] →
        (autoMapComponentsToGroups groups comps)[i]? = some g) ∧
      (∀ (i : ℕ) (g g' : SemanticGroup), groups[i]? = some g → g.children = [] →
        (autoMapComponentsToGroups groups comps)[i]? = some g' →
        g' = { g with children := g'.children }) := by
  unfold autoMapComponentsToGroups
  refine ⟨autoMapGo_length groups comps, ?_, ?_⟩
  · intro i g hg hne
    exact autoMapGo_get_nonempty groups comps i g hg hne
  · intro i g g' hg he hg'
    exact autoMapGo_get_repair groups comps i g g' hg he hg'

/-- Witness for C10: a concrete run in which the first group (non-empty
children) is returned unchanged and the second (empty children) is
repaired, changing only `children`. -/
theorem autoMap_modifies_only_empty_children_witness :
    (autoMapComponentsToGroups [grpHeaderFull, grpTotalEmpty] [cmpX, cmpY]).length = 2 ∧
      (autoMapComponentsToGroups [grpHeaderFull, grpTotalEmpty] [cmpX, cmpY])[0]? =
        some grpHeaderFull ∧
      gTval = { grpTotalEmpty with children := gTval.children } :=
  ⟨(autoMap_modifies_only_empty_children [grpHeaderFull, grpTotalEmpty] [cmpX, cmpY]).1,
    (autoMap_modifies_only_empty_children [grpHeaderFull, grpTotalEmpty]
      [cmpX, cmpY]).2.1 0 grpHeaderFull rfl (by decide),
    (autoMap_modifies_only_empty_children [grpHeaderFull, grpTotalEmpty]
      [cmpX, cmpY]).2.2 1 grpTotalEmpty gTval rfl rfl (by decide)⟩

/-! ## C3: descriptor uniqueness across groups -/

/-- The two raw groups of the C3 counterexample both list descriptor
`x1` among their children ids. -/
def rgDupA : RawGroup :=
  { id := some "ga", name := some "Group A", type := some "container"
    description := some "", bounds := some { x := 0, y := 0, width := 100, height := 50 }
    children := ["x1"], properties := {}, confidence := some (mkRat 9 10) }

def rgDupB : RawGroup :=
  { id := some "gb", name := some "Group B", type := some "card"
    description := some "", bounds := some { x := 0, y := 200, width := 100, height := 50 }
    children := ["x1"], properties := {}, confidence := some (mkRat 9 10) }

def rawDup : RawGroupingResult :=
  { groups := [rgDupA, rgDupB], confidence := some (mkRat 4 5) }

/-- C3 counterexample: when the model reply lists the same descriptor id in
two groups' `children`, id resolution places the descriptor in both
groups — the surfaced `GroupingResult` has `cmpX` in the children of two
distinct groups, refuting "every descriptor appears in at most one
group's children". -/
theorem descriptor_in_two_groups_cex :
    (validateAndEnhanceResult rawDup [cmpX] 0).groups.map (fun g => g.children) =
        [[cmpX], [cmpX]] ∧
      ((validateAndEnhanceResult rawDup [cmpX] 0).groups.filter
        (fun g => cmpX ∈ g.children)).length = 2 := by
  constructor
  · decide
  · decide

/-- C3 (amended): the auto-repair phase alone keeps descriptors unique:
repairs draw from a shared pool initialised with all descriptors and
consumed as groups are repaired, so (for a duplicate-free descriptor list)
no descriptor is assigned to two repaired groups in one run.  Uniqueness
across a repaired and an id-resolved group, or across two id-resolved
groups, is not guaranteed (see the counterexample). -/
theorem autoMap_repaired_disjoint (groups : List SemanticGroup)
    (comps : List ComponentAnalysis) (hnd : comps.Nodup) (i j : ℕ) (hij : i < j)
    (gi gj gi' gj' : SemanticGroup)
    (hgi : groups[i]? = some gi) (hei : gi.children = [])
    (hgj : groups[j]? = some gj) (hej : gj.children = [])
    (hi' : (autoMapComponentsToGroups groups comps)[i]? = some gi')
    (hj' : (autoMapComponentsToGroups groups comps)[j]? = some gj') :
    ∀ c ∈ gi'.children, c ∉ gj'.children := by
  unfold autoMapComponentsToGroups at hi' hj'
  exact autoMapGo_disjoint groups comps hnd i j gi gj gi' gj' hij hgi hei hgj hej hi' hj'

/-- Witness for C3 (amended): two empty groups repaired from the pool
[cmpX, cmpY]; the first claims cmpX, so cmpX is not among the second's
children. -/
theorem autoMap_repaired_disjoint_witness :
    ([cmpX, cmpY] : List ComponentAnalysis).Nodup ∧ cmpX ∉ gAval.children :=
  ⟨by decide,
    autoMap_repaired_disjoint [grpTotalEmpty, grpActionEmpty] [cmpX, cmpY]
      (by decide) 0 1 (by decide) grpTotalEmpty grpActionEmpty gTval gAval
      rfl rfl rfl rfl (by decide) (by decide) cmpX (by decide)⟩

/-! ## C1: confidence clamping -/

/-- A model reply reporting confidence 1.5. -/
def rawOverConf : RawAnalysis := { confidence := some (mkRat 3 2) }

/-- A minimal grouping result (no groups, confidence 0.5). -/
def emptyGroupingResult : SemanticGroupingResult :=
  { groups := [], totalNodes := 0, groupedNodes := 0, ungroupedNodes := []
    confidence := mkRat 1 2, processingTime := 0 }

/-- The fallback analysis `createFallbackAnalysis` produces for
`emptyGroupingResult`. -/
def fallbackA0 : GPTVisionAnalysis :=
  { components := []
    layout :=
      { structureKind := "mixed", responsive := false
        breakpoints := ["xs", "sm", "md", "lg"]
        spacing := { consistent := false, units := [8, 16, 24] } }
    designSystem :=
      { colors :=
          { primary := "#1976d2", secondary := "#dc004e"
            background := "#ffffff", text := "#333333", accent := none }
        typography := { fontFamily := "Roboto", sizes := [], weights := [] }
        spacing := { baseUnit := 8, scale := [] }
        borderRadius := [] }
    confidence := max (mkRat 3 5) (mkRat 1 2)
    suggestions := ["Consider using GPT Vision for more accurate visual analysis"] }

lemma mkRat_35_eq : (mkRat 3 5 : ℚ) = 3/5 := by
  rw [Rat.mkRat_eq_div]
  norm_num

lemma fallbackGroupsAux_confidence (comps : List ComponentAnalysis)
    (seen : List String) : ∀ g ∈ fallbackGroupsAux comps seen, g.confidence = mkRat 1 2 := by
  induction comps generalizing seen with
  | nil => simp [fallbackGroupsAux]
  | cons c rest ih =>
    intro g hg
    by_cases h : c.id ∈ seen
    · exact ih _ g (by simpa [fallbackGroupsAux, h] using hg)
    · simp only [fallbackGroupsAux, if_neg h] at hg
      rcases List.mem_cons.mp hg with rfl | hg'
      · rfl
      · exact ih _ g hg'

lemma autoMapStep_confidence (pool : List ComponentAnalysis) (g : SemanticGroup) :
    ((autoMapStep pool g).1).confidence = g.confidence := by
  by_cases h : g.children = []
  · rw [autoMapStep_of_empty pool g h]
  · rw [autoMapStep_of_nonempty pool g h]

lemma autoMapGo_mem_confidence (gs : List SemanticGroup)
    (pool : List ComponentAnalysis) (g' : SemanticGroup)
    (hg' : g' ∈ autoMapGo gs pool) :
    ∃ g ∈ gs, g'.confidence = g.confidence := by
  induction gs generalizing pool with
  | nil => simp [autoMapGo] at hg'
  | cons hd tl ih =>
    rcases List.mem_cons.mp (by simpa [autoMapGo] using hg') with h1 | h1
    · exact ⟨hd, List.mem_cons_self _ _, by rw [h1]; exact autoMapStep_confidence pool hd⟩
    · obtain ⟨g, hg, hc⟩ := ih _ h1
      exact ⟨g, List.mem_cons_of_mem _ hg, hc⟩

lemma validateAndEnhanceResult_groups_eq (raw : RawGroupingResult)
    (comps : List ComponentAnalysis) (pt : ℚ) :
    (validateAndEnhanceResult raw comps pt).groups =
      (if (raw.groups.map (toSemanticGroup · comps)).any (fun g => g.children.isEmpty)
       then autoMapComponentsToGroups (raw.groups.map (toSemanticGroup · comps)) comps
       else raw.groups.map (toSemanticGroup · comps)) := rfl

lemma validateAndEnhanceResult_groups_confidence (raw : RawGroupingResult)
    (comps : List ComponentAnalysis) (pt : ℚ) :
    ∀ g ∈ (validateAndEnhanceResult raw comps pt).groups,
      1/10 ≤ g.confidence ∧ g.confidence ≤ 1 := by
  intro g hg
  have base : ∀ g0 ∈ raw.groups.map (toSemanticGroup · comps),
      1/10 ≤ g0.confidence ∧ g0.confidence ≤ 1 := by
    intro g0 hg0
    rcases List.mem_map.mp hg0 with ⟨rg, _, rfl⟩
    exact clampConf_bounds _
  rw [validateAndEnhanceResult_groups_eq] at hg
  by_cases hcond : (raw.groups.map (toSemanticGroup · comps)).any
      (fun g => g.children.isEmpty)
  · rw [if_pos hcond] at hg
    obtain ⟨g0, hg0, hc⟩ := autoMapGo_mem_confidence _ _ g hg
    rw [hc]
    exact base g0 hg0
  · rw [if_neg hcond] at hg
    exact base g hg

lemma createFallbackResult_groups_confidence (comps : List ComponentAnalysis)
    (pt : ℚ) : ∀ g ∈ (createFallbackResult comps pt).groups,
      1/10 ≤ g.confidence ∧ g.confidence ≤ 1 := by
  intro g hg
  have hmem : g ∈ fallbackGroupsAux comps [] :=
    (List.take_sublist _ _).subset hg
  rw [fallbackGroupsAux_confidence comps [] g hmem, mkRat_half]
  norm_num

/-- C1 counterexample: on the model-success path the visual validator does
NOT clamp the analysis confidence: a reply reporting confidence 1.5 is
returned with confidence 1.5, outside [0.1, 1.0].  (The clamping
`validateAndEnhanceAnalysis` exists in the source but is dead code behind
a TODO.) -/
theorem vision_success_confidence_unclamped_cex :
    analyzeSemanticGroups (some rawOverConf) emptyGroupingResult =
        Except.ok (successAnalysis rawOverConf) ∧
      (successAnalysis rawOverConf).confidence = 3/2 ∧
      ¬((successAnalysis rawOverConf).confidence ≤ 1) := by
  have h : (successAnalysis rawOverConf).confidence = mkRat 3 2 := by decide
  refine ⟨rfl, ?_, ?_⟩
  · rw [h, Rat.mkRat_eq_div]
    norm_num
  · rw [h, Rat.mkRat_eq_div]
    norm_num

/-- C1 (amended): the grouping engine clamps every group confidence and its
result confidence into [0.1, 1.0] on all paths; the visual validator's
fallback confidence is `max(0.6, grouping confidence)` whenever the
fallback returns at all; but on the model-success path the analysis
confidence is passed through unclamped — it equals the model's reported
value whenever that value is non-zero (and 0.7 when absent or zero). -/
theorem confidence_clamping (o : FetchOutcome) (comps : List ComponentAnalysis)
    (pt : ℚ) :
    (∀ g ∈ (groupComponents o comps pt).groups,
        1/10 ≤ g.confidence ∧ g.confidence ≤ 1) ∧
      (1/10 ≤ (groupComponents o comps pt).confidence ∧
        (groupComponents o comps pt).confidence ≤ 1) ∧
      (∀ (raw : RawAnalysis) (grouping : SemanticGroupingResult) (q : ℚ),
        raw.confidence = some q → q ≠ 0 →
        analyzeSemanticGroups (some raw) grouping =
            Except.ok (successAnalysis raw) ∧
          (successAnalysis raw).confidence = q) ∧
      (∀ (grouping : SemanticGroupingResult) (a : GPTVisionAnalysis),
        createFallbackAnalysis grouping = Except.ok a →
        a.confidence = max (3/5 : ℚ) grouping.confidence) := by
  have hfb : ∀ (cs : List ComponentAnalysis) (t : ℚ),
      (∀ g ∈ (createFallbackResult cs t).groups,
        1/10 ≤ g.confidence ∧ g.confidence ≤ 1) ∧
      (1/10 ≤ (createFallbackResult cs t).confidence ∧
        (createFallbackResult cs t).confidence ≤ 1) := by
    intro cs t
    refine ⟨createFallbackResult_groups_confidence cs t, ?_⟩
    show 1/10 ≤ (mkRat 1 2 : ℚ) ∧ (mkRat 1 2 : ℚ) ≤ 1
    rw [mkRat_half]
    norm_num
  have hva : ∀ (raw : RawGroupingResult) (cs : List ComponentAnalysis) (t : ℚ),
      (∀ g ∈ (validateAndEnhanceResult raw cs t).groups,
        1/10 ≤ g.confidence ∧ g.confidence ≤ 1) ∧
      (1/10 ≤ (validateAndEnhanceResult raw cs t).confidence ∧
        (validateAndEnhanceResult raw cs t).confidence ≤ 1) := by
    intro raw cs t
    exact ⟨validateAndEnhanceResult_groups_confidence raw cs t, clampConf_bounds _⟩
  have hgrp : (∀ g ∈ (groupComponents o comps pt).groups,
      1/10 ≤ g.confidence ∧ g.confidence ≤ 1) ∧
      (1/10 ≤ (groupComponents o comps pt).confidence ∧
        (groupComponents o comps pt).confidence ≤ 1) := by
    cases o with
    | fail => exact hfb comps pt
    | ok content =>
      simp only [groupComponents]
      cases jsonParse content with
      | none => exact hfb comps pt
      | some j =>
        dsimp only
        cases decodeRawGrouping j with
        | none => exact hfb comps pt
        | some raw =>
          dsimp only
          exact hva raw comps pt
  refine ⟨hgrp.1, hgrp.2, ?_, ?_⟩
  · intro raw grouping q hq hq0
    refine ⟨rfl, ?_⟩
    show jsOrQ raw.confidence (mkRat 7 10) = q
    rw [hq]
    simp [jsOrQ, hq0]
  · intro grouping a ha
    unfold createFallbackAnalysis at ha
    cases hx : extractBasicDesignSystemFromGroups grouping with
    | error e => rw [hx] at ha; exact absurd ha (by simp)
    | ok ds =>
      rw [hx] at ha
      simp only [Except.ok.injEq] at ha
      rw [← ha, ← mkRat_35_eq]

/-- Witness for C1 (amended): the empty-input fallback run keeps its
confidence inside the clamp, and a concrete no-fills grouping's fallback
analysis has confidence `max(0.6, 0.5)`. -/
theorem confidence_clamping_witness :
    (1/10 ≤ (groupComponents FetchOutcome.fail [] 0).confidence ∧
        (groupComponents FetchOutcome.fail [] 0).confidence ≤ 1) ∧
      fallbackA0.confidence = max (3/5 : ℚ) (mkRat 1 2) :=
  ⟨(confidence_clamping FetchOutcome.fail [] 0).2.1,
    (confidence_clamping FetchOutcome.fail [] 0).2.2.2 emptyGroupingResult
      fallbackA0 rfl⟩

/-! ## C7: external-call failures and the fallback paths -/

/-- A descriptor carrying a (possibly empty) `fills` array, as the
structural extractor produces for any node with a `fills` field. -/
def cmpFills : ComponentAnalysis :=
  { id := "f1", name := "BG", type := "RECTANGLE"
    bounds := { x := 0, y := 0, width := 100, height := 100 }
    fills := some [] }

def grpWithFills : SemanticGroup :=
  { id := "g-f", name := "Card", type := "card", description := ""
    bounds := { x := 0, y := 0, width := 100, height := 100 }
    children := [cmpFills], properties := {}, confidence := mkRat 4 5 }

def groupingWithFills : SemanticGroupingResult :=
  { groups := [grpWithFills], totalNodes := 1, groupedNodes := 1
    ungroupedNodes := [], confidence := mkRat 4 5, processingTime := 0 }

/-- C7: the grouping side always recovers — a failed grouping call returns
the deterministic fallback result.  But the visual-validation side does
not: on any failure, `createFallbackAnalysis` runs inside the `catch`
block and calls `this.extractColor`, a method not defined on
`GPTVisionService`, so for any grouping whose groups contain a child with
a `fills` field the fallback itself throws a `TypeError` that propagates
to the caller.  Only when no child carries `fills` does the documented
fallback value come back (third conjunct). -/
theorem external_failure_fallback_bug :
    (∀ (comps : List ComponentAnalysis) (pt : ℚ),
        groupComponents FetchOutcome.fail comps pt = createFallbackResult comps pt) ∧
      analyzeSemanticGroups none groupingWithFills =
        Except.error JsError.missingExtractColor ∧
      analyzeSemanticGroups none emptyGroupingResult = Except.ok fallbackA0 :=
  ⟨fun _ _ => rfl, rfl, rfl⟩

/-! ## C5: markdown code fences around the grouping reply -/

lemma parseNumber_backquote (cs : List Char) :
    parseNumber (backquoteChar :: cs) = none := by
  have h1 : ((backquoteChar :: cs).head? == some '-') = false := rfl
  have h2 : backquoteChar.isDigit = false := rfl
  have h3 : ¬(backquoteChar = '-') := by decide
  simp [parseNumber, h1, h2, h3, List.takeWhile_cons]

lemma parseValue_backquote (fuel : ℕ) (cs : List Char) :
    parseValue fuel (backquoteChar :: cs) = none := by
  cases fuel with
  | zero => rfl
  | succ n =>
    have hws : isWsChar backquoteChar = false := rfl
    have e1 : (backquoteChar == '"') = false := rfl
    have e2 : (backquoteChar == lbrace) = false := rfl
    have e3 : (backquoteChar == '[') = false := rfl
    have e4 : (backquoteChar == 't') = false := rfl
    have e5 : (backquoteChar == 'f') = false := rfl
    have e6 : (backquoteChar == 'n') = false := rfl
    simp [parseValue, skipWs, hws, e1, e2, e3, e4, e5, e6, parseNumber_backquote]

lemma jsonParse_backquote (cs : List Char) :
    jsonParse (String.mk (backquoteChar :: cs)) = none := by
  unfold jsonParse
  simp [parseValue_backquote]

lemma fenceWrap_cons (body : String) :
    fenceWrap body = String.mk (backquoteChar ::
      ([backquoteChar, backquoteChar, 'j', 's', 'o', 'n'] ++
        '\n' :: body.data ++ '\n' :: fenceChars)) := rfl

/-- C5 (amended): `groupComponents` does not strip markdown code fences.
For EVERY body, the fenced reply "```json\n" ++ body ++ "\n```" fails
`JSON.parse` (no JSON value starts with a backtick) and the call routes to
the deterministic fallback, never the model path; fence tolerance exists
only in the visual-validation call, which strips the fence before
parsing. -/
theorem groupComponents_fenced_falls_back (body : String)
    (comps : List ComponentAnalysis) (pt : ℚ) :
    groupComponents (FetchOutcome.ok (fenceWrap body)) comps pt =
      createFallbackResult comps pt := by
  unfold groupComponents
  dsimp only
  rw [fenceWrap_cons, jsonParse_backquote]

/-- The counterexample reply body: a valid GroupingResult-shaped JSON
object (braces written via escapes). -/
def fencedBody : String := "\x7b\"groups\": [], \"confidence\": 0.8\x7d"

/-- The same body wrapped in a markdown code fence. -/
def fencedContent : String := fenceWrap fencedBody

/-- C5 counterexample: the fenced valid JSON reply is NOT parsed by
`groupComponents` — the run returns the 0.5-confidence fallback — although
the identical body parses fine once the vision service's fence stripping
is applied (the unfenced run takes the model path and reports the reply's
0.8 confidence). -/
theorem groupComponents_fence_cex :
    groupComponents (FetchOutcome.ok fencedContent) [cmpZ] 5 =
        createFallbackResult [cmpZ] 5 ∧
      (groupComponents (FetchOutcome.ok fencedContent) [cmpZ] 5).confidence = 1/2 ∧
      stripFence fencedContent = fencedBody ∧
      (groupComponents (FetchOutcome.ok (stripFence fencedContent))
        [cmpZ] 5).confidence = 4/5 := by
  have hparse : jsonParse fencedContent = none := jsonParse_backquote _
  have h1 : groupComponents (FetchOutcome.ok fencedContent) [cmpZ] 5 =
      createFallbackResult [cmpZ] 5 := by
    unfold groupComponents
    dsimp only
    rw [hparse]
  have hstrip : stripFence fencedContent = fencedBody := by decide
  refine ⟨h1, ?_, hstrip, ?_⟩
  · rw [h1]
    exact mkRat_half
  · rw [hstrip]
    have h2 : (groupComponents (FetchOutcome.ok fencedBody) [cmpZ] 5).confidence =
        mkRat 4 5 := by decide
    rw [h2, Rat.mkRat_eq_div]
    norm_num

/-! ## C8: style-mapper determinism -/

/-- C8: the Style Mapper is a pure function — two runs of
`mapComponentsToMui` on the same components, token set and asset-URL map
produce identical output, and the output components are exactly the
per-component mapping of the inputs, in input order. -/
theorem mapComponentsToMui_deterministic (components : List ComponentAnalysis)
    (designTokens : DesignTokens) (assetUrls : List (String × String)) :
    mapComponentsToMui components designTokens assetUrls =
        mapComponentsToMui components designTokens assetUrls ∧
      (mapComponentsToMui components designTokens assetUrls).components =
        components.map (fun c => mapSingleComponent c assetUrls) :=
  ⟨rfl, rfl⟩

/-! ## C9: comparison metrics scenario -/

/-- C9: for any semantic-grouping result with 5 groups and confidence 0.7
compared against any visual analysis with 8 components and confidence
0.85, `compareStageResults` reports componentCount 3 and confidenceChange
15.0 percentage points. -/
theorem compareStageResults_scenario (g : SemanticGroupingResult)
    (a : GPTVisionAnalysis) (t : ℚ)
    (hg5 : g.groups.length = 5) (hgc : g.confidence = 7/10)
    (ha8 : a.components.length = 8) (hac : a.confidence = 17/20) :
    (compareStageResults g a t).improvement.componentCount = 3 ∧
      (compareStageResults g a t).improvement.confidenceChange = 15 := by
  constructor
  · show (a.components.length : ℤ) - (g.groups.length : ℤ) = 3
    rw [hg5, ha8]
    norm_num
  · show qmul (qsub a.confidence g.confidence) 100 = 15
    rw [qsub_eq, qmul_eq, hgc, hac]
    norm_num

def grpSample : SemanticGroup :=
  { id := "gs", name := "G", type := "container", description := ""
    bounds := { x := 0, y := 0, width := 10, height := 10 }
    children := [cmpZ], properties := {}, confidence := mkRat 9 10 }

def icSample : IdentifiedComponent :=
  { id := "ic", type := "text", name := "T", description := ""
    bounds := { x := 0, y := 0, width := 10, height := 10 }
    propInteractive := false
    materialUIMapping := { component := "Typography", props := [] } }

def scenarioGrouping : SemanticGroupingResult :=
  { groups := List.replicate 5 grpSample, totalNodes := 5, groupedNodes := 5
    ungroupedNodes := [], confidence := mkRat 7 10, processingTime := 1000 }

def scenarioAnalysis : GPTVisionAnalysis :=
  { components := List.replicate 8 icSample, layout := defaultVisionLayout
    designSystem := defaultVisionDesignSystem, confidence := mkRat 17 20
    suggestions := [] }

/-- Witness for C9: the scenario instantiated with concrete results. -/
theorem compareStageResults_scenario_witness :
    scenarioGrouping.groups.length = 5 ∧
      (compareStageResults scenarioGrouping scenarioAnalysis 0).improvement.componentCount = 3 ∧
      (compareStageResults scenarioGrouping scenarioAnalysis 0).improvement.confidenceChange = 15 := by
  have h := compareStageResults_scenario scenarioGrouping scenarioAnalysis 0
    (by decide)
    (by rw [show scenarioGrouping.confidence = mkRat 7 10 from rfl, Rat.mkRat_eq_div]; norm_num)
    (by decide)
    (by rw [show scenarioAnalysis.confidence = mkRat 17 20 from rfl, Rat.mkRat_eq_div]; norm_num)
  exact ⟨by decide, h.1, h.2⟩

end FigmaPipeline
